import Mathlib

/-!
Verification of the AfroGazette sales/commission platform business logic.

The definitions below are a shallow embedding of the backend source:
  * `Sale` model operations from backend/src/models/Sale.js
  * sale route handlers from backend/src/routes/sales.js
  * invoice helpers and routes from backend/src/routes/invoices.js
  * commission summary from backend/src/routes/commission-payments.js
  * dashboard and CSV export from the analytics router
  * client deletion from the client router and Client.js model

The database is modelled as in-memory lists of rows; SQL DECIMAL values
are modelled as exact rationals (ℚ); nullable columns as `Option`;
timestamps and dates as opaque strings (their ISO rendering).
-/

namespace AfroGazette

/-- Status column of the sales table; the code only ever stores these
three string values. -/
inductive SaleStatus where
  | pending
  | approved
  | rejected
deriving DecidableEq, Repr

/-- One row of the `sales` table (Sale.js).  `commission_rate` is a
nullable DECIMAL column: `Sale.update` can store NULL into it (the JS
driver turns an `undefined` parameter into SQL NULL). -/
structure Sale where
  id : Nat
  client_id : Nat
  journalist_id : Nat
  amount : ℚ
  payment_method : String
  payment_date : String
  ad_type : String
  description : String
  proof_of_payment_url : Option String
  commission_rate : Option ℚ
  commission_amount : ℚ
  status : SaleStatus
  approved_by : Option Nat
  approved_at : Option String
  rejection_reason : Option String
deriving DecidableEq, Repr

/-- One row of the `commission_payments` table. -/
structure CommissionPayment where
  id : Nat
  journalist_id : Nat
  amount : ℚ
  payment_date : String
  payment_method : Option String
  reference_number : Option String
  notes : Option String
  paid_by : Nat
deriving DecidableEq, Repr

/-- One row of the `invoices` table (snapshot of the sale at generation
time plus the generated number and the rendered PDF path). -/
structure Invoice where
  id : Nat
  sale_id : Nat
  invoice_number : String
  client_name : String
  client_phone : Option String
  amount : ℚ
  payment_method : String
  payment_date : String
  ad_type : String
  description : String
  generated_by : Nat
  pdf_path : Option String
deriving DecidableEq, Repr

/-- One row of the `clients` table (Client.js). -/
structure Client where
  id : Nat
  client_name : String
  contact_person : Option String
  phone_number : String
  email : Option String
  address : Option String
  added_by : Option Nat
deriving DecidableEq, Repr

/-- The authenticated caller attached to the request by authMiddleware
(auth.js): the decoded JWT carries the user id and the role string. -/
structure AuthUser where
  userId : Nat
  role : String
deriving DecidableEq, Repr

/-- Outcome of a route handler: either a JSON success response or an
error response `err code msg` (res.status(code).json({error: msg})). -/
inductive RouteResult (α : Type) where
  | ok (code : Nat) (val : α)
  | err (code : Nat) (msg : String)
deriving DecidableEq, Repr

/-- The response is a 403 Forbidden error (roleCheck / ownership denial). -/
def RouteResult.isForbidden {α : Type} : RouteResult α → Prop
  | .err 403 _ => True
  | _ => False

/-- The response is some error response. -/
def RouteResult.isErr {α : Type} : RouteResult α → Prop
  | .err _ _ => True
  | .ok _ _ => False

instance {α : Type} (r : RouteResult α) : Decidable r.isForbidden := by
  unfold RouteResult.isForbidden
  split <;> infer_instance

instance {α : Type} (r : RouteResult α) : Decidable r.isErr := by
  unfold RouteResult.isErr
  split <;> infer_instance

/-! ## Sale model layer (backend/src/models/Sale.js) -/

/-- Input of `Sale.create`; `commission_rate` is `none` when the caller
supplies no such property (the JS destructuring then defaults it to
`10.00`). -/
structure SaleCreateData where
  client_id : Nat
  journalist_id : Nat
  amount : ℚ
  payment_method : String
  payment_date : String
  ad_type : String
  description : String
  proof_of_payment_url : Option String
  commission_rate : Option ℚ
deriving DecidableEq, Repr

/-- `Sale.create`: computes `commission_amount = amount * rate / 100`
and INSERTs a row with `status = 'pending'`; `freshId` is the serial id
assigned by the database. -/
def Sale.create (d : SaleCreateData) (freshId : Nat) (db : List Sale) :
    Sale × List Sale :=
  let rate := d.commission_rate.getD 10
  let s : Sale :=
    { id := freshId
      client_id := d.client_id
      journalist_id := d.journalist_id
      amount := d.amount
      payment_method := d.payment_method
      payment_date := d.payment_date
      ad_type := d.ad_type
      description := d.description
      proof_of_payment_url := d.proof_of_payment_url
      commission_rate := some rate
      commission_amount := d.amount * rate / 100
      status := .pending
      approved_by := none
      approved_at := none
      rejection_reason := none }
  (s, db ++ [s])

/-- `Sale.findById`: `SELECT ... WHERE s.id = $1` (ids are unique, so
the first matching row is the row). -/
def Sale.findById (id : Nat) (db : List Sale) : Option Sale :=
  db.find? (fun s => s.id == id)

/-- Input of `Sale.update`; `commission_rate` is `none` when the caller
passes no such property (as the PUT route always does). -/
structure SaleUpdateData where
  client_id : Nat
  amount : ℚ
  payment_method : String
  payment_date : String
  ad_type : String
  description : String
  commission_rate : Option ℚ
deriving DecidableEq, Repr

/-- JS expression `commission_rate || 10`: both an absent value and a
zero value are falsy and fall back to 10. -/
def jsRateOrTen : Option ℚ → ℚ
  | none => 10
  | some r => if r = 0 then 10 else r

/-- The SET clause of `Sale.update` applied to one row: note that the
stored `commission_rate` becomes the raw supplied value (NULL when
absent) while `commission_amount` is computed with `rate || 10`. -/
def Sale.applyUpdate (d : SaleUpdateData) (s : Sale) : Sale :=
  { s with
    client_id := d.client_id
    amount := d.amount
    payment_method := d.payment_method
    payment_date := d.payment_date
    ad_type := d.ad_type
    description := d.description
    commission_rate := d.commission_rate
    commission_amount := d.amount * jsRateOrTen d.commission_rate / 100 }

/-- `Sale.update`: `UPDATE sales SET ... WHERE id = $9 AND
status = 'pending' RETURNING *`; returns the updated row (none when the
WHERE clause matched no row) and the new table state. -/
def Sale.update (id : Nat) (d : SaleUpdateData) (db : List Sale) :
    Option Sale × List Sale :=
  let hit := fun (s : Sale) => s.id == id && s.status == .pending
  let db2 := db.map (fun s => if hit s then Sale.applyUpdate d s else s)
  ((db.find? hit).map (Sale.applyUpdate d), db2)

/-- `Sale.approve`: `UPDATE sales SET status='approved', approved_by,
approved_at WHERE id = $2 RETURNING *` — no status guard in the SQL. -/
def Sale.approve (id approver : Nat) (now : String) (db : List Sale) :
    Option Sale × List Sale :=
  let apply := fun (s : Sale) =>
    { s with status := .approved, approved_by := some approver,
             approved_at := some now }
  let db2 := db.map (fun s => if s.id == id then apply s else s)
  ((db.find? (fun s => s.id == id)).map apply, db2)

/-- `Sale.reject`: `UPDATE sales SET status='rejected', approved_by,
approved_at, rejection_reason WHERE id = $3 RETURNING *`. -/
def Sale.reject (id approver : Nat) (now reason : String) (db : List Sale) :
    Option Sale × List Sale :=
  let apply := fun (s : Sale) =>
    { s with status := .rejected, approved_by := some approver,
             approved_at := some now, rejection_reason := some reason }
  let db2 := db.map (fun s => if s.id == id then apply s else s)
  ((db.find? (fun s => s.id == id)).map apply, db2)

/-- `Sale.delete`: `DELETE FROM sales WHERE id = $1 AND
status = 'pending' RETURNING id`; returns `rowCount > 0` and the new
table state. -/
def Sale.del (id : Nat) (db : List Sale) : Bool × List Sale :=
  let hit := fun (s : Sale) => s.id == id && s.status == .pending
  (db.any hit, db.filter (fun s => !hit s))

/-! ## Sale routes (backend/src/routes/sales.js) -/

/-- Body of `PUT /api/sales/:id`; each field is `none` when absent from
the JSON body.  The route never reads a `commission_rate` field. -/
structure SaleUpdateBody where
  client_id : Option Nat
  amount : Option ℚ
  payment_method : Option String
  payment_date : Option String
  ad_type : Option String
  description : Option String
deriving DecidableEq, Repr

/-- JS truthiness of an optional numeric body field (`!amount`). -/
def truthyQ : Option ℚ → Bool
  | none => false
  | some v => v != 0

/-- JS truthiness of an optional numeric id field. -/
def truthyNat : Option Nat → Bool
  | none => false
  | some n => n != 0

/-- JS truthiness of an optional string body field. -/
def truthyStr : Option String → Bool
  | none => false
  | some s => s != ""

/-- The `!client_id || !amount || !payment_method || !payment_date ||
!ad_type` required-field check shared by the create and update routes. -/
def missingRequired (b : SaleUpdateBody) : Bool :=
  !truthyNat b.client_id || !truthyQ b.amount || !truthyStr b.payment_method
    || !truthyStr b.payment_date || !truthyStr b.ad_type

/-- `PUT /api/sales/:id` (update sale): look the sale up, enforce
ownership for journalists, refuse non-pending sales, validate the body,
then call `Sale.update` — forwarding only the six body fields, never a
commission rate. -/
def updateSaleRoute (caller : AuthUser) (saleId : Nat) (b : SaleUpdateBody)
    (db : List Sale) : RouteResult Sale × List Sale :=
  match Sale.findById saleId db with
  | none => (.err 404 "Sale not found", db)
  | some s =>
    if caller.role == "journalist" && s.journalist_id != caller.userId then
      (.err 403 "Access denied", db)
    else if s.status != .pending then
      (.err 400 "Only pending sales can be updated", db)
    else if missingRequired b then
      (.err 400 "Missing required fields", db)
    else
      let d : SaleUpdateData :=
        { client_id := b.client_id.getD 0
          amount := b.amount.getD 0
          payment_method := b.payment_method.getD ""
          payment_date := b.payment_date.getD ""
          ad_type := b.ad_type.getD ""
          description := b.description.getD ""
          commission_rate := none }
      match Sale.update saleId d db with
      | (some s2, db2) => (.ok 200 s2, db2)
      | (none, db2) => (.err 500 "Failed to update sale", db2)

/-- `POST /api/sales/:id/approve` (admin only via roleCheck): 404 when
absent, 400 when not pending, otherwise `Sale.approve`. -/
def approveSaleRoute (caller : AuthUser) (saleId : Nat) (now : String)
    (db : List Sale) : RouteResult Sale × List Sale :=
  if caller.role != "admin" then
    (.err 403 "Insufficient permissions", db)
  else
    match Sale.findById saleId db with
    | none => (.err 404 "Sale not found", db)
    | some s =>
      if s.status != .pending then
        (.err 400 "Sale is not pending", db)
      else
        match Sale.approve saleId caller.userId now db with
        | (some s2, db2) => (.ok 200 s2, db2)
        | (none, db2) => (.err 500 "Failed to approve sale", db2)

/-- `POST /api/sales/:id/reject` (admin only): the mandatory-reason
check comes first, then 404, then the pending check, then `Sale.reject`. -/
def rejectSaleRoute (caller : AuthUser) (saleId : Nat)
    (reason : Option String) (now : String) (db : List Sale) :
    RouteResult Sale × List Sale :=
  if caller.role != "admin" then
    (.err 403 "Insufficient permissions", db)
  else if !truthyStr reason then
    (.err 400 "Rejection reason is required", db)
  else
    match Sale.findById saleId db with
    | none => (.err 404 "Sale not found", db)
    | some s =>
      if s.status != .pending then
        (.err 400 "Sale is not pending", db)
      else
        match Sale.reject saleId caller.userId now (reason.getD "") db with
        | (some s2, db2) => (.ok 200 s2, db2)
        | (none, db2) => (.err 500 "Failed to reject sale", db2)

/-- `DELETE /api/sales/:id`: 404 when absent, ownership check for
journalists, 400 when not pending, then `Sale.delete` (500 when that
reports no deleted row). -/
def deleteSaleRoute (caller : AuthUser) (saleId : Nat) (db : List Sale) :
    RouteResult String × List Sale :=
  match Sale.findById saleId db with
  | none => (.err 404 "Sale not found", db)
  | some s =>
    if caller.role == "journalist" && s.journalist_id != caller.userId then
      (.err 403 "Access denied", db)
    else if s.status != .pending then
      (.err 400 "Only pending sales can be deleted", db)
    else
      match Sale.del saleId db with
      | (true, db2) => (.ok 200 "Sale deleted successfully", db2)
      | (false, db2) => (.err 500 "Failed to delete sale", db2)

/-- `POST /api/sales` (create sale): after validation the route calls
`Sale.create` with the caller as journalist and no commission rate (so
the model defaults it to 10.00). -/
def createSaleRoute (caller : AuthUser) (b : SaleUpdateBody)
    (proofUrl : Option String) (freshId : Nat) (db : List Sale) :
    RouteResult Sale × List Sale :=
  if missingRequired b then
    (.err 400 "Missing required fields", db)
  else if b.amount.getD 0 ≤ 0 then
    (.err 400 "Amount must be greater than 0", db)
  else if !(["Cash", "Ecocash", "InnBucks", "Omari", "Bank Transfer"].contains
      (b.payment_method.getD "")) then
    (.err 400 "Invalid payment method", db)
  else if !(["WhatsApp Channel", "WhatsApp Group", "Print", "Radio", "TV",
      "Digital Banner"].contains (b.ad_type.getD "")) then
    (.err 400 "Invalid ad type", db)
  else
    let d : SaleCreateData :=
      { client_id := b.client_id.getD 0
        journalist_id := caller.userId
        amount := b.amount.getD 0
        payment_method := b.payment_method.getD ""
        payment_date := b.payment_date.getD ""
        ad_type := b.ad_type.getD ""
        description := b.description.getD ""
        proof_of_payment_url := proofUrl
        commission_rate := none }
    let (s, db2) := Sale.create d freshId db
    (.ok 201 s, db2)

/-! ## Commission summary (backend/src/routes/commission-payments.js) -/

/-- `SELECT COALESCE(SUM(commission_amount), 0) FROM sales WHERE
journalist_id = $1 AND status = 'approved'`. -/
def totalEarned (sales : List Sale) (j : Nat) : ℚ :=
  ((sales.filter (fun s => s.journalist_id == j && s.status == .approved)).map
    Sale.commission_amount).sum

/-- `SELECT COALESCE(SUM(amount), 0) FROM commission_payments WHERE
journalist_id = $1`. -/
def totalPaid (pays : List CommissionPayment) (j : Nat) : ℚ :=
  ((pays.filter (fun p => p.journalist_id == j)).map
    CommissionPayment.amount).sum

/-- The summary object returned by
`GET /api/commission-payments/journalist/:journalistId/summary`. -/
structure CommissionSummary where
  total_earned : ℚ
  total_paid : ℚ
  balance : ℚ
deriving DecidableEq, Repr

/-- The summary route: two independent aggregate queries, then
`balance = totalEarned - totalPaid` in JS. -/
def journalistSummary (sales : List Sale) (pays : List CommissionPayment)
    (j : Nat) : CommissionSummary :=
  let e := totalEarned sales j
  let p := totalPaid pays j
  { total_earned := e, total_paid := p, balance := e - p }

/-! ## Invoice numbering and routes (backend/src/routes/invoices.js) -/

/-- `SELECT setting_value FROM settings WHERE setting_key = $1`, the
settings table being a key-value list. -/
def settingValue (settings : List (String × String)) (k : String) :
    Option String :=
  (settings.find? (fun kv => kv.1 == k)).map Prod.snd

/-- One decimal digit as a character. -/
def digitChar (d : Nat) : Char :=
  match d with
  | 0 => '0' | 1 => '1' | 2 => '2' | 3 => '3' | 4 => '4'
  | 5 => '5' | 6 => '6' | 7 => '7' | 8 => '8' | 9 => '9'
  | _ => '?'

/-- Fuelled decimal rendering of a natural number (most significant
digit first); any fuel above the number itself suffices. -/
def natToDigits : Nat → Nat → List Char
  | 0, _ => []
  | fuel + 1, n =>
    if n < 10 then [digitChar n]
    else natToDigits fuel (n / 10) ++ [digitChar (n % 10)]

/-- JS `String(n)` for a natural number. -/
def natToString (n : Nat) : String :=
  String.mk (natToDigits (n + 1) n)

/-- Value of a digit string read in base 10. -/
def digitsVal (ds : List Char) : Nat :=
  ds.foldl (fun n c => 10 * n + (c.toNat - '0'.toNat)) 0

/-- JS `parseInt` restricted to the non-negative decimal case: parse the
leading run of digits, `none` standing for NaN. -/
def parseIntNat (s : String) : Option Nat :=
  let ds := s.data.takeWhile Char.isDigit
  if ds.isEmpty then none else some (digitsVal ds)

/-- JS `String(sequence).padStart(3, '0')`. -/
def padSeq (n : Nat) : String :=
  let s := natToString n
  if s.length ≥ 3 then s
  else String.mk (List.replicate (3 - s.length) '0' ++ s.data)

/-- Worker for JS `.split('-')`. -/
def splitDashAux (acc : List Char) : List Char → List (List Char)
  | [] => [acc.reverse]
  | c :: rest =>
    if c = '-' then acc.reverse :: splitDashAux [] rest
    else splitDashAux (c :: acc) rest

/-- JS `s.split('-')`. -/
def jsSplitDash (s : String) : List String :=
  (splitDashAux [] s.data).map String.mk

/-- SQL `LIKE pat || '%'` / JS prefix test at character level. -/
def strIsPre (p s : String) : Bool :=
  p.data.isPrefixOf s.data

/-- `ORDER BY id DESC LIMIT 1` over the rows whose `invoice_number`
matches `LIKE pat%`: the matching row with the greatest id. -/
def lastInvoiceById (invs : List Invoice) (pat : String) : Option Invoice :=
  (invs.filter (fun i => strIsPre pat i.invoice_number)).foldl
    (fun acc i =>
      match acc with
      | none => some i
      | some a => if a.id ≤ i.id then some i else some a)
    none

/-- The third `-`-separated component of the most recent matching
invoice number, incremented (`parseInt(lastNumber.split('-')[2]) + 1`);
`none` stands for the JS NaN outcome. -/
def nextSequence (last : Invoice) : Option Nat :=
  (parseIntNat ((jsSplitDash last.invoice_number).getD 2 "")).map (· + 1)

/-- `generateInvoiceNumber()`: configured prefix (default "INV"),
current year, most recent (greatest id) invoice number matching
`<prefix>-<year>-%`, sequence = last sequence + 1 (1 when none),
formatted with the sequence zero-padded to 3 digits. -/
def generateInvoiceNumber (settings : List (String × String)) (year : Nat)
    (invs : List Invoice) : String :=
  let pfx := (settingValue settings "invoice_prefix").getD "INV"
  let base := pfx ++ "-" ++ natToString year ++ "-"
  match lastInvoiceById invs base with
  | none => base ++ padSeq 1
  | some last =>
    match nextSequence last with
    | some n => base ++ padSeq n
    | none => base ++ "NaN"

/-- Byte-wise (C-collation) string comparison, the order SQL uses on
the varchar invoice numbers. -/
def charListLe : List Char → List Char → Bool
  | [], _ => true
  | _ :: _, [] => false
  | a :: as, b :: bs =>
    if a < b then true else if b < a then false else charListLe as bs

/-- The spec's description of the generator, differing in one spot: it
takes the lexicographically-last matching invoice number rather than the
one with the greatest id. -/
def lastInvoiceLex (invs : List Invoice) (pat : String) : Option Invoice :=
  (invs.filter (fun i => strIsPre pat i.invoice_number)).foldl
    (fun acc i =>
      match acc with
      | none => some i
      | some a =>
        if charListLe a.invoice_number.data i.invoice_number.data
        then some i else some a)
    none

/-- Modelled from the spec: `GenerateInvoiceNumber` as the spec words
it — "the lexicographically-last existing invoice number matching
`<prefix>-<year>-%`" — for comparison with `generateInvoiceNumber`. -/
def generateInvoiceNumberLexSpec (settings : List (String × String))
    (year : Nat) (invs : List Invoice) : String :=
  let pfx := (settingValue settings "invoice_prefix").getD "INV"
  let base := pfx ++ "-" ++ natToString year ++ "-"
  match lastInvoiceLex invs base with
  | none => base ++ padSeq 1
  | some last =>
    match nextSequence last with
    | some n => base ++ padSeq n
    | none => base ++ "NaN"

/-- Serial id for a fresh invoice row. -/
def nextInvoiceId (invs : List Invoice) : Nat :=
  (invs.map Invoice.id).foldr max 0 + 1

/-- The invoice row INSERTed by the generate route: the next serial id,
the freshly generated number, the snapshot of the sale, and the path of
the PDF rendered by generateInvoicePDF. -/
def newInvoiceRow (caller : AuthUser) (saleId : Nat) (clientName : String)
    (clientPhone : Option String) (year : Nat)
    (settings : List (String × String)) (s : Sale) (invs : List Invoice) :
    Invoice :=
  let num := generateInvoiceNumber settings year invs
  { id := nextInvoiceId invs
    sale_id := saleId
    invoice_number := num
    client_name := clientName
    client_phone := clientPhone
    amount := s.amount
    payment_method := s.payment_method
    payment_date := s.payment_date
    ad_type := s.ad_type
    description := s.description
    generated_by := caller.userId
    pdf_path := some ("/uploads/invoices/invoice-" ++ num ++ ".pdf") }

/-- `POST /api/invoices/generate/:saleId` (admin only): 404 when the
sale is absent, 400 when it is not approved, 400 when an invoice already
exists for it; otherwise allocate the next number, snapshot the sale
into an invoice row, render the PDF and store its path. -/
def generateInvoiceRoute (caller : AuthUser) (saleId : Nat)
    (clientName : String) (clientPhone : Option String) (year : Nat)
    (settings : List (String × String)) (sales : List Sale)
    (invs : List Invoice) : RouteResult Invoice × List Invoice :=
  if caller.role != "admin" then
    (.err 403 "Insufficient permissions", invs)
  else
    match Sale.findById saleId sales with
    | none => (.err 404 "Sale not found", invs)
    | some s =>
      if s.status != .approved then
        (.err 400 "Only approved sales can have invoices generated", invs)
      else if invs.any (fun i => i.sale_id == saleId) then
        (.err 400 "Invoice already exists for this sale", invs)
      else
        let inv := newInvoiceRow caller saleId clientName clientPhone year
          settings s invs
        (.ok 201 inv, invs ++ [inv])

/-- `GET /api/invoices` — authMiddleware only, no role check: every
authenticated caller receives the full invoice list. -/
def listInvoicesRoute (caller : AuthUser) (invs : List Invoice) :
    RouteResult (List Invoice) :=
  .ok 200 invs

/-- `GET /api/invoices/:id` — authMiddleware only: 404 when absent,
otherwise the invoice row, for every role. -/
def getInvoiceRoute (caller : AuthUser) (id : Nat) (invs : List Invoice) :
    RouteResult Invoice :=
  match invs.find? (fun i => i.id == id) with
  | none => .err 404 "Invoice not found"
  | some i => .ok 200 i

/-- `GET /api/invoices/:id/download` — authMiddleware only: 404 when the
invoice, its stored pdf path, or the file itself is missing; otherwise
the PDF stream named `<invoice_number>.pdf`.  `files` is the set of
paths present on disk. -/
def downloadInvoiceRoute (caller : AuthUser) (id : Nat)
    (invs : List Invoice) (files : List String) : RouteResult String :=
  match invs.find? (fun i => i.id == id) with
  | none => .err 404 "Invoice not found"
  | some i =>
    match i.pdf_path with
    | none => .err 404 "PDF not available for this invoice"
    | some p =>
      if files.contains p then .ok 200 (i.invoice_number ++ ".pdf")
      else .err 404 "PDF file not found"

/-- `DELETE /api/invoices/:id` (admin only): remove the PDF file when
present, then the invoice row. -/
def deleteInvoiceRoute (caller : AuthUser) (id : Nat) (invs : List Invoice)
    (files : List String) :
    RouteResult String × (List Invoice × List String) :=
  if caller.role != "admin" then
    (.err 403 "Insufficient permissions", (invs, files))
  else
    match invs.find? (fun i => i.id == id) with
    | none => (.err 404 "Invoice not found", (invs, files))
    | some i =>
      let files2 :=
        match i.pdf_path with
        | none => files
        | some p => files.filter (fun f => f != p)
      (.ok 200 "Invoice deleted successfully",
        (invs.filter (fun x => x.id != id), files2))

/-! ## Dashboard summary (analytics router, GET /analytics/dashboard) -/

/-- The caller's data scope: `none` for an admin (all rows), `some j`
for journalist `j` (only their rows). -/
def inScope (scope : Option Nat) (j : Nat) : Bool :=
  match scope with
  | none => true
  | some u => j == u

/-- Row set of the dashboard commissions query:
`FROM sales s LEFT JOIN commission_payments cp ON s.journalist_id =
cp.journalist_id WHERE s.status = 'approved' [AND s.journalist_id = $1]`.
Each pair is `(s.commission_amount, cp.amount)` with the missing side of
the LEFT JOIN contributing 0 to the SUM (SQL ignores NULLs). -/
def dashboardCommissionRows (sales : List Sale)
    (pays : List CommissionPayment) (scope : Option Nat) : List (ℚ × ℚ) :=
  let appr := sales.filter
    (fun s => s.status == .approved && inScope scope s.journalist_id)
  appr.flatMap (fun s =>
    match pays.filter (fun p => p.journalist_id == s.journalist_id) with
    | [] => [(s.commission_amount, 0)]
    | ps => ps.map (fun p => (s.commission_amount, p.amount)))

/-- `COALESCE(SUM(commission_amount), 0)` over the joined rows. -/
def dashboardEarned (sales : List Sale) (pays : List CommissionPayment)
    (scope : Option Nat) : ℚ :=
  ((dashboardCommissionRows sales pays scope).map Prod.fst).sum

/-- `COALESCE(SUM(cp.amount), 0)` over the joined rows. -/
def dashboardPaid (sales : List Sale) (pays : List CommissionPayment)
    (scope : Option Nat) : ℚ :=
  ((dashboardCommissionRows sales pays scope).map Prod.snd).sum

/-- Modelled from the spec: the dashboard's `commissions.earned` as the
claim describes it — the sum of `commission_amount` over approved sales
in the caller's scope. -/
def specDashboardEarned (sales : List Sale) (scope : Option Nat) : ℚ :=
  ((sales.filter
      (fun s => s.status == .approved && inScope scope s.journalist_id)).map
    Sale.commission_amount).sum

/-- Modelled from the spec: the dashboard's `commissions.paid` as the
claim describes it — the sum of `amount` over commission payments in the
caller's scope. -/
def specDashboardPaid (pays : List CommissionPayment)
    (scope : Option Nat) : ℚ :=
  ((pays.filter (fun p => inScope scope p.journalist_id)).map
    CommissionPayment.amount).sum

/-! ## Client deletion (client router and models/Client.js) -/

/-- `Client.findById`. -/
def Client.findById (id : Nat) (db : List Client) : Option Client :=
  db.find? (fun c => c.id == id)

/-- `Client.hasSales`: `SELECT COUNT(*) FROM sales WHERE client_id = $1`
compared with 0 — sales of every status count. -/
def Client.hasSales (id : Nat) (sales : List Sale) : Bool :=
  (sales.filter (fun s => s.client_id == id)).length > 0

/-- `Client.delete`: `DELETE FROM clients WHERE id = $1 RETURNING id`. -/
def Client.del (id : Nat) (db : List Client) : Bool × List Client :=
  (db.any (fun c => c.id == id), db.filter (fun c => c.id != id))

/-- `DELETE /api/clients/:id` (admin only): 404 when absent, a 400
"Cannot delete client with existing sales" error when `Client.hasSales`,
otherwise `Client.delete`; the sales table is never touched. -/
def deleteClientRoute (caller : AuthUser) (id : Nat) (clients : List Client)
    (sales : List Sale) : RouteResult String × (List Client × List Sale) :=
  if caller.role != "admin" then
    (.err 403 "Insufficient permissions", (clients, sales))
  else
    match Client.findById id clients with
    | none => (.err 404 "Client not found", (clients, sales))
    | some _ =>
      if Client.hasSales id sales then
        (.err 400 "Cannot delete client with existing sales",
          (clients, sales))
      else
        match Client.del id clients with
        | (true, db2) => (.ok 200 "Client deleted successfully", (db2, sales))
        | (false, db2) => (.err 500 "Failed to delete client", (db2, sales))

/-! ## CSV export (analytics router, GET /analytics/export/sales)

One result row of the export query, joined and flattened.  DECIMAL
columns arrive from the database driver as decimal strings and are
emitted verbatim, so they are modelled as strings; the two timestamps
are modelled by their ISO rendering. -/

structure ExportRow where
  id : Nat
  created_at : String
  payment_date : String
  client_name : Option String
  client_phone : Option String
  journalist : Option String
  amount : String
  commission_amount : String
  payment_method : String
  ad_type : String
  status : String
  description : Option String
deriving DecidableEq, Repr

/-- The JS global replace `.replace(/"/g, '""')` at character level. -/
def escQuotes : List Char → List Char
  | [] => []
  | c :: r => if c = '"' then '"' :: '"' :: escQuotes r else c :: escQuotes r

/-- The three shapes of entry the export builds into its `values`
array: a bare value, a double-quoted value without escaping
(client/journalist names), and a double-quoted value with internal
quotes doubled (description). -/
inductive CsvCell where
  | raw (v : String)
  | quot (v : String)
  | quotEsc (v : String)
deriving DecidableEq, Repr

/-- The characters the cell contributes to the emitted line. -/
def CsvCell.render : CsvCell → List Char
  | .raw v => v.data
  | .quot v => '"' :: (v.data ++ ['"'])
  | .quotEsc v => '"' :: (escQuotes v.data ++ ['"'])

/-- The logical field value the cell carries. -/
def CsvCell.value : CsvCell → String
  | .raw v => v
  | .quot v => v
  | .quotEsc v => v

/-- The `values` array of the export loop, in source order. -/
def rowCells (r : ExportRow) : List CsvCell :=
  [ .raw (natToString r.id), .raw r.created_at, .raw r.payment_date,
    .quot (r.client_name.getD ""), .raw (r.client_phone.getD ""),
    .quot (r.journalist.getD ""), .raw r.amount, .raw r.commission_amount,
    .raw r.payment_method, .raw r.ad_type, .raw r.status,
    .quotEsc (r.description.getD "") ]

/-- `values.join(',')` at character level. -/
def joinComma : List (List Char) → List Char
  | [] => []
  | [v] => v
  | v :: vs => v ++ ',' :: joinComma vs

/-- One emitted CSV data line. -/
def csvLineChars (r : ExportRow) : List Char :=
  joinComma ((rowCells r).map CsvCell.render)

/-- `headers.join(',')` from the source. -/
def csvHeaderLine : String :=
  "ID,Created At,Payment Date,Client,Phone,Journalist,Amount,Commission,Payment Method,Ad Type,Status,Description"

/-- The whole response body: header line, then one line per row, each
terminated by a newline. -/
def csvExportBody (rows : List ExportRow) : String :=
  csvHeaderLine ++ "\n"
    ++ String.join (rows.map (fun r => String.mk (csvLineChars r) ++ "\n"))

/-- The export response with its Content-Type and Content-Disposition
headers. -/
structure CsvResponse where
  contentType : String
  contentDisposition : String
  body : String
deriving DecidableEq, Repr

/-- `GET /analytics/export/sales` (admin only). -/
def exportSalesRoute (caller : AuthUser) (rows : List ExportRow) :
    RouteResult CsvResponse :=
  if caller.role != "admin" then .err 403 "Insufficient permissions"
  else
    .ok 200
      { contentType := "text/csv"
        contentDisposition := "attachment; filename=sales-export.csv"
        body := csvExportBody rows }

/-! A strict RFC-4180-style parser for one CSV line, used to state what
"parses back" means: a quoted field must close its quote and be followed
by a comma or the end of the line, `""` inside quotes reads back as one
quote, and an unquoted field runs to the next comma. -/

/-- Read the body of a quoted field: `acc` holds the value so far in
reverse; returns the field value and the characters after the closing
quote, or `none` when the quote never closes. -/
def parseQuotedBody (acc : List Char) : List Char → Option (List Char × List Char)
  | [] => none
  | c :: rest =>
    if c = '"' then
      match rest with
      | '"' :: rest2 => parseQuotedBody ('"' :: acc) rest2
      | _ => some (acc.reverse, rest)
    else parseQuotedBody (c :: acc) rest

theorem parseQuotedBody_cons_ne (acc : List Char) (c : Char) (rest : List Char)
    (hc : c ≠ '"') :
    parseQuotedBody acc (c :: rest) = parseQuotedBody (c :: acc) rest := by
  cases rest with
  | nil =>
    rw [parseQuotedBody.eq_3 _ _ _ (fun r2 hr2 => List.noConfusion hr2)]
    rw [if_neg hc]
  | cons d ds =>
    by_cases hd : d = '"'
    · subst hd
      rw [parseQuotedBody.eq_2]
      rw [if_neg hc]
    · rw [parseQuotedBody.eq_3 _ _ _
        (fun r2 hr2 => by injection hr2 with h1 h2; exact hd h1)]
      rw [if_neg hc]

/-- Read one unquoted field: the value up to (excluding) the next comma
and the remaining characters starting at that comma. -/
def parseRaw (acc : List Char) : List Char → List Char × List Char
  | [] => (acc.reverse, [])
  | c :: rest =>
    if c = ',' then (acc.reverse, c :: rest) else parseRaw (c :: acc) rest

/-- Fuelled worker for the line parser; the fuel bounds the number of
fields and is decremented once per comma, so any fuel at least the
length of the line suffices. -/
def parseFieldsF : Nat → List Char → Option (List String)
  | _, [] => some [""]
  | 0, _ :: _ => none
  | fuel + 1, c :: rest =>
    if c = '"' then
      match parseQuotedBody [] rest with
      | none => none
      | some (f, []) => some [String.mk f]
      | some (f, c2 :: rest2) =>
        if c2 = ',' then (parseFieldsF fuel rest2).map (String.mk f :: ·)
        else none
    else
      match parseRaw [] (c :: rest) with
      | (f, []) => some [String.mk f]
      | (f, _ :: rest2) => (parseFieldsF fuel rest2).map (String.mk f :: ·)

/-- Parse one CSV line into its list of field values; `none` on a
malformed line (an unterminated quote, or a closing quote not followed
by a comma or the end of the line). -/
def parseFields (cs : List Char) : Option (List String) :=
  parseFieldsF cs.length cs

/-! Helper lemmas about the CSV parser and the emitted cells. -/

theorem mkData (s : String) : String.mk s.data = s := rfl

theorem parseQuotedBody_close (acc tail : List Char)
    (htail : ∀ t2, tail ≠ '"' :: t2) :
    parseQuotedBody acc ('"' :: tail) = some (acc.reverse, tail) := by
  rw [parseQuotedBody.eq_3 _ _ _ (fun r2 hr2 => htail r2 hr2)]
  rw [if_pos rfl]

theorem escQuotes_no_quote :
    ∀ (v : List Char), (∀ c ∈ v, c ≠ '"') → escQuotes v = v := by
  intro v
  induction v with
  | nil => intro _; rfl
  | cons c r ih =>
    intro h
    rw [escQuotes]
    rw [if_neg (h c (by simp))]
    rw [ih (fun x hx => h x (by simp [hx]))]

theorem parseQuotedBody_esc (v : List Char) : ∀ (acc tail : List Char),
    (∀ t2, tail ≠ '"' :: t2) →
    parseQuotedBody acc (escQuotes v ++ '"' :: tail) =
      some (acc.reverse ++ v, tail) := by
  induction v with
  | nil =>
    intro acc tail htail
    rw [escQuotes]
    rw [List.nil_append]
    rw [parseQuotedBody_close acc tail htail]
    rw [List.append_nil]
  | cons c v' ih =>
    intro acc tail htail
    by_cases hc : c = '"'
    · subst hc
      rw [escQuotes]
      rw [if_pos rfl]
      rw [List.cons_append, List.cons_append]
      rw [parseQuotedBody.eq_2]
      rw [if_pos rfl]
      rw [ih ('"' :: acc) tail htail]
      simp
    · rw [escQuotes]
      rw [if_neg hc]
      rw [List.cons_append]
      rw [parseQuotedBody_cons_ne _ _ _ hc]
      rw [ih (c :: acc) tail htail]
      simp

theorem parseRaw_all :
    ∀ (v : List Char), (∀ c ∈ v, c ≠ ',') →
    ∀ acc, parseRaw acc v = (acc.reverse ++ v, []) := by
  intro v
  induction v with
  | nil => intro _ acc; rw [parseRaw]; rw [List.append_nil]
  | cons c v' ih =>
    intro h acc
    rw [parseRaw]
    rw [if_neg (h c (by simp))]
    rw [ih (fun x hx => h x (by simp [hx])) (c :: acc)]
    simp

theorem parseRaw_upto_comma (rest : List Char) :
    ∀ (v : List Char), (∀ c ∈ v, c ≠ ',') →
    ∀ acc, parseRaw acc (v ++ ',' :: rest) = (acc.reverse ++ v, ',' :: rest) := by
  intro v
  induction v with
  | nil =>
    intro _ acc
    rw [List.nil_append, parseRaw, if_pos rfl, List.append_nil]
  | cons c v' ih =>
    intro h acc
    rw [List.cons_append, parseRaw]
    rw [if_neg (h c (by simp))]
    rw [ih (fun x hx => h x (by simp [hx])) (c :: acc)]
    simp

theorem parseFieldsF_nil (fuel : Nat) : parseFieldsF fuel [] = some [""] := by
  cases fuel <;> rfl

theorem parseFieldsF_quoted_cons (fuel : Nat) (rest fv rest2 : List Char)
    (hq : parseQuotedBody [] rest = some (fv, ',' :: rest2)) :
    parseFieldsF (fuel + 1) ('"' :: rest) =
      (parseFieldsF fuel rest2).map (String.mk fv :: ·) := by
  rw [parseFieldsF]
  simp [hq]

theorem parseFieldsF_quoted_last (fuel : Nat) (rest fv : List Char)
    (hq : parseQuotedBody [] rest = some (fv, [])) :
    parseFieldsF (fuel + 1) ('"' :: rest) = some [String.mk fv] := by
  rw [parseFieldsF]
  simp [hq]

theorem parseFieldsF_raw_cons (fuel : Nat) (c : Char) (rest fv rest2 : List Char)
    (hc : c ≠ '"')
    (hr : parseRaw [] (c :: rest) = (fv, ',' :: rest2)) :
    parseFieldsF (fuel + 1) (c :: rest) =
      (parseFieldsF fuel rest2).map (String.mk fv :: ·) := by
  rw [parseFieldsF]
  simp [hc, hr]

theorem parseFieldsF_raw_last (fuel : Nat) (c : Char) (rest fv : List Char)
    (hc : c ≠ '"')
    (hr : parseRaw [] (c :: rest) = (fv, [])) :
    parseFieldsF (fuel + 1) (c :: rest) = some [String.mk fv] := by
  rw [parseFieldsF]
  simp [hc, hr]

/-- Safety of one exported cell: the conditions under which its emitted
form reads back to its value under standard CSV parsing.  Unquoted cells
must avoid comma, quote and newline; quoted-unescaped cells must avoid
quote and newline; quoted-escaped cells only newline. -/
def CsvCell.safe (c : CsvCell) : Prop :=
  match c with
  | .raw v => ∀ x ∈ v.data, x ≠ ',' ∧ x ≠ '"' ∧ x ≠ '\n'
  | .quot v => ∀ x ∈ v.data, x ≠ '"' ∧ x ≠ '\n'
  | .quotEsc v => ∀ x ∈ v.data, x ≠ '\n'

instance : (c : CsvCell) → Decidable c.safe
  | .raw _ => List.decidableBAll _ _
  | .quot _ => List.decidableBAll _ _
  | .quotEsc _ => List.decidableBAll _ _

theorem parseFieldsF_cell_last (fuel : Nat) (c : CsvCell) (hc : c.safe) :
    parseFieldsF (fuel + 1) c.render = some [c.value] := by
  cases c with
  | raw v =>
    obtain ⟨d⟩ := v
    cases d with
    | nil => rw [CsvCell.render, CsvCell.value]; rfl
    | cons x xs =>
      have hx : x ≠ '"' := ((hc x (by simp)).2).1
      have hcomma : ∀ y ∈ x :: xs, y ≠ ',' := fun y hy => (hc y hy).1
      rw [CsvCell.render, CsvCell.value]
      exact parseFieldsF_raw_last fuel x xs (x :: xs)
        hx (by rw [parseRaw_all (x :: xs) hcomma []]; rfl)
  | quot v =>
    have hnq : ∀ y ∈ v.data, y ≠ '"' := fun y hy => (hc y hy).1
    rw [CsvCell.render, CsvCell.value]
    have hesc : '"' :: (v.data ++ ['"']) = '"' :: (escQuotes v.data ++ '"' :: []) := by
      rw [escQuotes_no_quote v.data hnq]
    rw [hesc]
    refine parseFieldsF_quoted_last fuel _ _ ?_
    rw [parseQuotedBody_esc v.data [] [] (fun t2 ht2 => List.noConfusion ht2)]
    rfl
  | quotEsc v =>
    rw [CsvCell.render, CsvCell.value]
    have hshape : '"' :: (escQuotes v.data ++ ['"']) =
        '"' :: (escQuotes v.data ++ '"' :: []) := rfl
    rw [hshape]
    refine parseFieldsF_quoted_last fuel _ _ ?_
    rw [parseQuotedBody_esc v.data [] [] (fun t2 ht2 => List.noConfusion ht2)]
    rfl

theorem parseFieldsF_cell_cons (fuel : Nat) (c : CsvCell) (hc : c.safe)
    (rest : List Char) :
    parseFieldsF (fuel + 1) (c.render ++ ',' :: rest) =
      (parseFieldsF fuel rest).map (c.value :: ·) := by
  cases c with
  | raw v =>
    obtain ⟨d⟩ := v
    cases d with
    | nil =>
      rw [CsvCell.render, CsvCell.value]
      rw [List.nil_append]
      exact parseFieldsF_raw_cons fuel ',' rest [] rest (by decide)
        (by rw [parseRaw]; rw [if_pos rfl]; rfl)
    | cons x xs =>
      have hx : x ≠ '"' := ((hc x (by simp)).2).1
      have hcomma : ∀ y ∈ x :: xs, y ≠ ',' := fun y hy => (hc y hy).1
      rw [CsvCell.render, CsvCell.value]
      rw [List.cons_append]
      refine parseFieldsF_raw_cons fuel x (xs ++ ',' :: rest) (x :: xs) rest hx ?_
      rw [← List.cons_append]
      rw [parseRaw_upto_comma rest (x :: xs) hcomma []]
      rfl
  | quot v =>
    have hnq : ∀ y ∈ v.data, y ≠ '"' := fun y hy => (hc y hy).1
    rw [CsvCell.render, CsvCell.value]
    have hshape : ('"' :: (v.data ++ ['"'])) ++ ',' :: rest =
        '"' :: (escQuotes v.data ++ '"' :: (',' :: rest)) := by
      rw [escQuotes_no_quote v.data hnq]
      simp
    rw [hshape]
    refine parseFieldsF_quoted_cons fuel _ _ _ ?_
    rw [parseQuotedBody_esc v.data [] (',' :: rest)
      (fun t2 ht2 => by injection ht2 with h1 h2; exact absurd h1 (by decide))]
    rfl
  | quotEsc v =>
    rw [CsvCell.render, CsvCell.value]
    have hshape : ('"' :: (escQuotes v.data ++ ['"'])) ++ ',' :: rest =
        '"' :: (escQuotes v.data ++ '"' :: (',' :: rest)) := by
      simp
    rw [hshape]
    refine parseFieldsF_quoted_cons fuel _ _ _ ?_
    rw [parseQuotedBody_esc v.data [] (',' :: rest)
      (fun t2 ht2 => by injection ht2 with h1 h2; exact absurd h1 (by decide))]
    rfl

theorem joinComma_single (v : List Char) : joinComma [v] = v := rfl

theorem joinComma_cons (v w : List Char) (t : List (List Char)) :
    joinComma (v :: w :: t) = v ++ ',' :: joinComma (w :: t) := rfl

theorem parseFieldsF_joinComma :
    ∀ (cells : List CsvCell) (fuel : Nat),
      (joinComma (cells.map CsvCell.render)).length ≤ fuel →
      cells ≠ [] → (∀ c ∈ cells, c.safe) →
      parseFieldsF fuel (joinComma (cells.map CsvCell.render)) =
        some (cells.map CsvCell.value) := by
  intro cells
  induction cells with
  | nil => intro fuel _ hne _; exact absurd rfl hne
  | cons c cs ih =>
    intro fuel hfuel _ h
    cases cs with
    | nil =>
      rw [List.map_cons, List.map_nil, joinComma_single] at hfuel ⊢
      cases fuel with
      | zero =>
        have hr0 : c.render = [] :=
          List.eq_nil_of_length_eq_zero (Nat.le_zero.mp hfuel)
        rw [hr0]
        cases c with
        | raw v =>
          obtain ⟨d⟩ := v
          have hd : d = [] := by
            have := hr0
            rw [CsvCell.render] at this
            exact this
          subst hd
          rfl
        | quot v => exact absurd hr0 (by rw [CsvCell.render]; simp)
        | quotEsc v => exact absurd hr0 (by rw [CsvCell.render]; simp)
      | succ f =>
        rw [parseFieldsF_cell_last f c (h c (by simp))]
        rfl
    | cons c2 cs2 =>
      rw [List.map_cons, List.map_cons, joinComma_cons] at hfuel ⊢
      cases fuel with
      | zero => simp at hfuel
      | succ f =>
        rw [parseFieldsF_cell_cons f c (h c (by simp)) _]
        rw [← List.map_cons, ih f
          (by rw [List.map_cons]; simp at hfuel; omega) (by simp)
          (fun x hx => h x (by simp [hx]))]
        rfl

theorem parseFields_joinComma (cells : List CsvCell) (hne : cells ≠ [])
    (h : ∀ c ∈ cells, c.safe) :
    parseFields (joinComma (cells.map CsvCell.render)) =
      some (cells.map CsvCell.value) :=
  parseFieldsF_joinComma cells _ le_rfl hne h

/-! ## Example fixtures used by witnesses and counterexamples -/

/-- An admin caller. -/
def exAdmin : AuthUser := { userId := 9, role := "admin" }

/-- An approved sale of journalist 2 with commission 50 on amount 500. -/
def exApprovedSale : Sale :=
  { id := 1, client_id := 1, journalist_id := 2, amount := 500
    payment_method := "Cash", payment_date := "2025-01-01"
    ad_type := "Print", description := "ad spot"
    proof_of_payment_url := none, commission_rate := some 10
    commission_amount := 50, status := .approved
    approved_by := some 9, approved_at := some "2025-01-02"
    rejection_reason := none }

/-- A pending sale of journalist 2 with amount 100 at the default rate. -/
def exPendingSale : Sale :=
  { id := 1, client_id := 1, journalist_id := 2, amount := 100
    payment_method := "Cash", payment_date := "2025-01-01"
    ad_type := "Print", description := "ad spot"
    proof_of_payment_url := none, commission_rate := some 10
    commission_amount := 10, status := .pending
    approved_by := none, approved_at := none, rejection_reason := none }

/-- A well-formed update body that changes the amount to 200. -/
def exUpdateBody : SaleUpdateBody :=
  { client_id := some 1, amount := some 200
    payment_method := some "Cash", payment_date := some "2025-01-03"
    ad_type := some "Print", description := some "bigger ad" }

/-! ## Claim C1 -/

/-- Claim C1: once a sale's status is `approved` or `rejected` (that is,
not `pending`), the update, approve, reject and delete routes each
return an error response and leave the sales table exactly as it was,
for every caller, request body and rejection reason: the two statuses
are terminal. -/
theorem approved_rejected_terminal (caller : AuthUser) (db : List Sale)
    (saleId : Nat) (s : Sale) (body : SaleUpdateBody)
    (reason : Option String) (now : String)
    (hfind : Sale.findById saleId db = some s)
    (hs : s.status ≠ .pending) :
    (updateSaleRoute caller saleId body db).1.isErr ∧
    (updateSaleRoute caller saleId body db).2 = db ∧
    (approveSaleRoute caller saleId now db).1.isErr ∧
    (approveSaleRoute caller saleId now db).2 = db ∧
    (rejectSaleRoute caller saleId reason now db).1.isErr ∧
    (rejectSaleRoute caller saleId reason now db).2 = db ∧
    (deleteSaleRoute caller saleId db).1.isErr ∧
    (deleteSaleRoute caller saleId db).2 = db := by
  have hsb : (s.status != SaleStatus.pending) = true := by
    simp [bne_iff_ne]
    exact hs
  refine ⟨?_, ?_, ?_, ?_, ?_, ?_, ?_, ?_⟩
  · by_cases hj : caller.role == "journalist" && s.journalist_id != caller.userId <;>
      simp [updateSaleRoute, hfind, hj, hsb, RouteResult.isErr]
  · by_cases hj : caller.role == "journalist" && s.journalist_id != caller.userId <;>
      simp [updateSaleRoute, hfind, hj, hsb]
  · by_cases ha : caller.role != "admin" <;>
      simp [approveSaleRoute, ha, hfind, hsb, RouteResult.isErr]
  · by_cases ha : caller.role != "admin" <;>
      simp [approveSaleRoute, ha, hfind, hsb]
  · by_cases ha : caller.role != "admin" <;>
      by_cases hr : truthyStr reason <;>
      simp [rejectSaleRoute, ha, hr, hfind, hsb, RouteResult.isErr]
  · by_cases ha : caller.role != "admin" <;>
      by_cases hr : truthyStr reason <;>
      simp [rejectSaleRoute, ha, hr, hfind, hsb]
  · by_cases hj : caller.role == "journalist" && s.journalist_id != caller.userId <;>
      simp [deleteSaleRoute, hfind, hj, hsb, RouteResult.isErr]
  · by_cases hj : caller.role == "journalist" && s.journalist_id != caller.userId <;>
      simp [deleteSaleRoute, hfind, hj, hsb]

/-- Witness for C1 at a concrete approved sale and admin caller. -/
theorem approved_rejected_terminal_witness :
    Sale.findById 1 [exApprovedSale] = some exApprovedSale ∧
    exApprovedSale.status ≠ .pending ∧
    ((updateSaleRoute exAdmin 1 exUpdateBody [exApprovedSale]).1.isErr ∧
     (updateSaleRoute exAdmin 1 exUpdateBody [exApprovedSale]).2 = [exApprovedSale] ∧
     (approveSaleRoute exAdmin 1 "t" [exApprovedSale]).1.isErr ∧
     (approveSaleRoute exAdmin 1 "t" [exApprovedSale]).2 = [exApprovedSale] ∧
     (rejectSaleRoute exAdmin 1 (some "dup") "t" [exApprovedSale]).1.isErr ∧
     (rejectSaleRoute exAdmin 1 (some "dup") "t" [exApprovedSale]).2 = [exApprovedSale] ∧
     (deleteSaleRoute exAdmin 1 [exApprovedSale]).1.isErr ∧
     (deleteSaleRoute exAdmin 1 [exApprovedSale]).2 = [exApprovedSale]) :=
  ⟨by decide, by decide,
    approved_rejected_terminal exAdmin [exApprovedSale] 1 exApprovedSale
      exUpdateBody (some "dup") "t" (by decide) (by decide)⟩

/-! ## Claim C9 -/

/-- Claim C9: the pending-status guard is embedded in the SQL of the
model layer: on a table where every row carrying the targeted id is not
`pending`, `Sale.update` (whose UPDATE has `AND status = 'pending'`)
returns no row and changes nothing, and `Sale.delete` (whose DELETE has
`AND status = 'pending'`) returns false and removes nothing — even
though no route-level check is involved. -/
theorem model_layer_pending_guard (db : List Sale) (id : Nat)
    (d : SaleUpdateData)
    (h : ∀ s ∈ db, s.id = id → s.status ≠ .pending) :
    (Sale.update id d db).1 = none ∧ (Sale.update id d db).2 = db ∧
    (Sale.del id db).1 = false ∧ (Sale.del id db).2 = db := by
  have hhit : ∀ s ∈ db, (s.id == id && s.status == SaleStatus.pending) = false := by
    intro s hs
    by_cases hid : s.id = id
    · have hst := h s hs hid
      simp [hid, hst]
    · simp [hid]
  refine ⟨?_, ?_, ?_, ?_⟩
  · unfold Sale.update
    simp only []
    rw [List.find?_eq_none.mpr (fun s hs => by simp [hhit s hs])]
    rfl
  · unfold Sale.update
    simp only []
    conv_lhs => rw [show (db.map fun s =>
        if s.id == id && s.status == SaleStatus.pending
        then Sale.applyUpdate d s else s) = db.map fun s => s from
      List.map_congr_left (fun s hs => by rw [hhit s hs]; rfl)]
    exact List.map_id db
  · unfold Sale.del
    simp only []
    rw [List.any_eq_false]
    intro s hs
    simp [hhit s hs]
  · unfold Sale.del
    simp only []
    rw [List.filter_eq_self.mpr (fun s hs => by simp [hhit s hs])]

/-- Witness for C9 at a concrete approved sale. -/
theorem model_layer_pending_guard_witness :
    (∀ s ∈ [exApprovedSale], s.id = 1 → s.status ≠ SaleStatus.pending) ∧
    ((Sale.update 1
        ⟨1, 200, "Cash", "2025-01-03", "Print", "bigger ad", none⟩
        [exApprovedSale]).1 = none ∧
     (Sale.update 1
        ⟨1, 200, "Cash", "2025-01-03", "Print", "bigger ad", none⟩
        [exApprovedSale]).2 = [exApprovedSale] ∧
     (Sale.del 1 [exApprovedSale]).1 = false ∧
     (Sale.del 1 [exApprovedSale]).2 = [exApprovedSale]) :=
  ⟨by decide,
    model_layer_pending_guard [exApprovedSale] 1
      ⟨1, 200, "Cash", "2025-01-03", "Print", "bigger ad", none⟩
      (by decide)⟩

/-! ## Claim C2 -/

/-- Create input as built by the POST route: no commission rate, so the
model defaults the rate to 10.00. -/
def exCreateData : SaleCreateData :=
  { client_id := 1, journalist_id := 2, amount := 500
    payment_method := "Cash", payment_date := "2025-01-01"
    ad_type := "Print", description := "ad spot"
    proof_of_payment_url := none, commission_rate := none }

/-- The row produced by updating `exPendingSale` through the PUT route
with `exUpdateBody`: amount 200, commission recomputed at 10% = 20, but
the stored rate overwritten with NULL. -/
def exUpdatedPendingSale : Sale :=
  { exPendingSale with
    client_id := 1, amount := 200, payment_method := "Cash"
    payment_date := "2025-01-03", ad_type := "Print"
    description := "bigger ad", commission_rate := none
    commission_amount := 20 }

/-- Claim C2, evaluated at the failing input: after `Sale.create` the
invariant `commission_amount = amount * commission_rate / 100` holds
(rate defaulted to 10), but after a pending-state update through the PUT
route — which forwards no `commission_rate` — the stored rate becomes
NULL while the commission is recomputed at 10%, so no stored rate
satisfies the equation: the claimed invariant fails after updates. -/
theorem commission_invariant_broken_by_update :
    (∃ q, (Sale.create exCreateData 1 []).1.commission_rate = some q ∧
      (Sale.create exCreateData 1 []).1.commission_amount =
        (Sale.create exCreateData 1 []).1.amount * q / 100) ∧
    (Sale.findById 1 (updateSaleRoute exAdmin 1 exUpdateBody [exPendingSale]).2 =
        some exUpdatedPendingSale ∧
      exUpdatedPendingSale.status = .pending ∧
      exUpdatedPendingSale.amount = 200 ∧
      exUpdatedPendingSale.commission_amount = 20 ∧
      exUpdatedPendingSale.commission_rate = none ∧
      ¬ ∃ q, exUpdatedPendingSale.commission_rate = some q ∧
        exUpdatedPendingSale.commission_amount =
          exUpdatedPendingSale.amount * q / 100) := by
  refine ⟨⟨10, by simp [Sale.create, exCreateData], by simp [Sale.create, exCreateData]⟩,
    ?_, rfl, rfl, rfl, rfl, ?_⟩
  · simp only [updateSaleRoute, Sale.findById, Sale.update, Sale.applyUpdate,
      exAdmin, exUpdateBody, exPendingSale, exUpdatedPendingSale,
      missingRequired, truthyNat, truthyQ, truthyStr, jsRateOrTen,
      List.find?, List.map]
    norm_num
  · rintro ⟨q, hq, _⟩
    simp [exUpdatedPendingSale, exPendingSale] at hq

/-! ## Claim C3 -/

theorem totalEarned_foldr (sales : List Sale) (j : Nat) :
    totalEarned sales j = sales.foldr
      (fun s acc => if s.journalist_id = j ∧ s.status = .approved
        then s.commission_amount + acc else acc) 0 := by
  unfold totalEarned
  induction sales with
  | nil => rfl
  | cons s t ih =>
    rw [List.foldr_cons]
    by_cases hp : s.journalist_id = j ∧ s.status = SaleStatus.approved
    · rw [if_pos hp]
      rw [List.filter_cons_of_pos (by simp [hp.1, hp.2])]
      rw [List.map_cons, List.sum_cons, ih]
    · rw [if_neg hp]
      rw [List.filter_cons_of_neg (by simpa using hp)]
      rw [ih]

theorem totalPaid_foldr (pays : List CommissionPayment) (j : Nat) :
    totalPaid pays j = pays.foldr
      (fun p acc => if p.journalist_id = j then p.amount + acc else acc) 0 := by
  unfold totalPaid
  induction pays with
  | nil => rfl
  | cons p t ih =>
    rw [List.foldr_cons]
    by_cases hp : p.journalist_id = j
    · rw [if_pos hp]
      rw [List.filter_cons_of_pos (by simp [hp])]
      rw [List.map_cons, List.sum_cons, ih]
    · rw [if_neg hp]
      rw [List.filter_cons_of_neg (by simpa using hp)]
      rw [ih]

/-- Two commission payments (30 and 25) to journalist 2. -/
def exC3Pays : List CommissionPayment :=
  [ { id := 1, journalist_id := 2, amount := 30
      payment_date := "2025-02-01", payment_method := some "Cash"
      reference_number := none, notes := none, paid_by := 9 },
    { id := 2, journalist_id := 2, amount := 25
      payment_date := "2025-03-01", payment_method := some "Cash"
      reference_number := none, notes := none, paid_by := 9 } ]

/-- Claim C3: for every journalist and every history of sales and
payments, the per-journalist summary has `total_earned` = the sum of
`commission_amount` over that journalist's approved sales, `total_paid`
= the sum of `amount` over their commission payments, and `balance` =
`total_earned - total_paid`; the balance has no lower bound — at the
concrete history (earned 50, payments 30 and 25) it is -5. -/
theorem journalist_summary_correct :
    (∀ (sales : List Sale) (pays : List CommissionPayment) (j : Nat),
      (journalistSummary sales pays j).total_earned = sales.foldr
        (fun s acc => if s.journalist_id = j ∧ s.status = .approved
          then s.commission_amount + acc else acc) 0 ∧
      (journalistSummary sales pays j).total_paid = pays.foldr
        (fun p acc => if p.journalist_id = j then p.amount + acc else acc) 0 ∧
      (journalistSummary sales pays j).balance =
        (journalistSummary sales pays j).total_earned -
          (journalistSummary sales pays j).total_paid) ∧
    (journalistSummary [exApprovedSale] exC3Pays 2).balance = -5 := by
  refine ⟨fun sales pays j => ⟨totalEarned_foldr sales j,
    totalPaid_foldr pays j, rfl⟩, ?_⟩
  simp [journalistSummary, totalEarned, totalPaid, exApprovedSale, exC3Pays]
  norm_num

/-! ## Claim C4 -/

/-- An invoice already generated for `exApprovedSale`. -/
def exInvoice : Invoice :=
  { id := 1, sale_id := 1, invoice_number := "INV-2025-001"
    client_name := "Acme", client_phone := some "077", amount := 500
    payment_method := "Cash", payment_date := "2025-01-01", ad_type := "Print"
    description := "ad spot", generated_by := 9
    pdf_path := some "/uploads/invoices/invoice-INV-2025-001.pdf" }

/-- Counterexample to C4 as stated: for an approved sale that already
has an invoice, invoice generation fails with HTTP 400, not with the
claimed Conflict status 409. -/
theorem generate_invoice_duplicate_is_400_not_409 :
    (generateInvoiceRoute exAdmin 1 "Acme" (some "077") 2025 []
        [exApprovedSale] [exInvoice]).1 =
      .err 400 "Invoice already exists for this sale" ∧
    ∀ m, (generateInvoiceRoute exAdmin 1 "Acme" (some "077") 2025 []
        [exApprovedSale] [exInvoice]).1 ≠ .err 409 m := by
  have h : (generateInvoiceRoute exAdmin 1 "Acme" (some "077") 2025 []
      [exApprovedSale] [exInvoice]).1 =
      .err 400 "Invoice already exists for this sale" := by
    simp [generateInvoiceRoute, exAdmin, Sale.findById, exApprovedSale,
      exInvoice]
  exact ⟨h, fun m h2 => by rw [h] at h2; simp at h2⟩

/-- Claim C4 amended: generation fails with 404 `NotFound` when the sale
is absent, with 400 when the sale is not approved, and with the 400
error "Invoice already exists for this sale" (HTTP 400, not the
taxonomy's 409) when an invoice already exists; for an approved,
uninvoiced sale the first call succeeds and appends the one invoice row
for that sale, and a second sequential call fails with the duplicate
error and changes nothing, leaving exactly one invoice row for the
sale. -/
theorem generate_invoice_behaviour (caller : AuthUser) (saleId : Nat)
    (cn : String) (cp : Option String) (year : Nat)
    (settings : List (String × String)) (sales : List Sale)
    (invs : List Invoice) (hadmin : caller.role = "admin") :
    (Sale.findById saleId sales = none →
      generateInvoiceRoute caller saleId cn cp year settings sales invs =
        (.err 404 "Sale not found", invs)) ∧
    (∀ s, Sale.findById saleId sales = some s → s.status ≠ .approved →
      generateInvoiceRoute caller saleId cn cp year settings sales invs =
        (.err 400 "Only approved sales can have invoices generated", invs)) ∧
    (∀ s, Sale.findById saleId sales = some s → s.status = .approved →
      (∃ i ∈ invs, i.sale_id = saleId) →
      generateInvoiceRoute caller saleId cn cp year settings sales invs =
        (.err 400 "Invoice already exists for this sale", invs)) ∧
    (∀ s, Sale.findById saleId sales = some s → s.status = .approved →
      (∀ i ∈ invs, i.sale_id ≠ saleId) →
      ∃ inv,
        (generateInvoiceRoute caller saleId cn cp year settings sales invs).1 =
          .ok 201 inv ∧
        (generateInvoiceRoute caller saleId cn cp year settings sales invs).2 =
          invs ++ [inv] ∧
        inv.sale_id = saleId ∧
        ((invs ++ [inv]).filter (fun i => i.sale_id == saleId)).length = 1 ∧
        generateInvoiceRoute caller saleId cn cp year settings sales
            (invs ++ [inv]) =
          (.err 400 "Invoice already exists for this sale", invs ++ [inv])) := by
  have hrole : (caller.role != "admin") = false := by simp [hadmin]
  refine ⟨?_, ?_, ?_, ?_⟩
  · intro hfind
    simp [generateInvoiceRoute, hrole, hfind]
  · intro s hfind hs
    have hsb : (s.status != SaleStatus.approved) = true := by
      simp [bne_iff_ne]; exact hs
    simp [generateInvoiceRoute, hrole, hfind, hsb]
  · intro s hfind hs hdup
    have hsb : (s.status != SaleStatus.approved) = false := by
      simp [bne_iff_ne]; exact hs
    have hany : (invs.any fun i => i.sale_id == saleId) = true := by
      obtain ⟨i, hi, hid⟩ := hdup
      exact List.any_eq_true.mpr ⟨i, hi, by simp [hid]⟩
    simp [generateInvoiceRoute, hrole, hfind, hsb, hany]
  · intro s hfind hs hnone
    have hsb : (s.status != SaleStatus.approved) = false := by
      simp [bne_iff_ne]; exact hs
    have hany : (invs.any fun i => i.sale_id == saleId) = false := by
      rw [List.any_eq_false]
      intro i hi
      simp [hnone i hi]
    refine ⟨newInvoiceRow caller saleId cn cp year settings s invs,
      ?_, ?_, rfl, ?_, ?_⟩
    · simp [generateInvoiceRoute, hrole, hfind, hsb, hany]
    · simp [generateInvoiceRoute, hrole, hfind, hsb, hany]
    · rw [List.filter_append]
      rw [List.filter_eq_nil_iff.mpr (fun i hi => by simp [hnone i hi])]
      simp [newInvoiceRow]
    · have hany2 : ((invs ++
          [newInvoiceRow caller saleId cn cp year settings s invs]).any
          fun i => i.sale_id == saleId) = true := by
        rw [List.any_eq_true]
        exact ⟨newInvoiceRow caller saleId cn cp year settings s invs,
          by simp, by simp [newInvoiceRow]⟩
      simp [generateInvoiceRoute, hrole, hfind, hsb, hany2]

/-- Witness for C4 at the concrete approved sale with no invoice yet. -/
theorem generate_invoice_behaviour_witness :
    exAdmin.role = "admin" ∧
    ((Sale.findById 1 [exApprovedSale] = none →
      generateInvoiceRoute exAdmin 1 "Acme" (some "077") 2025 [] [exApprovedSale] [] =
        (.err 404 "Sale not found", [])) ∧
    (∀ s, Sale.findById 1 [exApprovedSale] = some s → s.status ≠ .approved →
      generateInvoiceRoute exAdmin 1 "Acme" (some "077") 2025 [] [exApprovedSale] [] =
        (.err 400 "Only approved sales can have invoices generated", [])) ∧
    (∀ s, Sale.findById 1 [exApprovedSale] = some s → s.status = .approved →
      (∃ i ∈ ([] : List Invoice), i.sale_id = 1) →
      generateInvoiceRoute exAdmin 1 "Acme" (some "077") 2025 [] [exApprovedSale] [] =
        (.err 400 "Invoice already exists for this sale", [])) ∧
    (∀ s, Sale.findById 1 [exApprovedSale] = some s → s.status = .approved →
      (∀ i ∈ ([] : List Invoice), i.sale_id ≠ 1) →
      ∃ inv,
        (generateInvoiceRoute exAdmin 1 "Acme" (some "077") 2025 [] [exApprovedSale] []).1 =
          .ok 201 inv ∧
        (generateInvoiceRoute exAdmin 1 "Acme" (some "077") 2025 [] [exApprovedSale] []).2 =
          ([] : List Invoice) ++ [inv] ∧
        inv.sale_id = 1 ∧
        ((([] : List Invoice) ++ [inv]).filter (fun i => i.sale_id == 1)).length = 1 ∧
        generateInvoiceRoute exAdmin 1 "Acme" (some "077") 2025 [] [exApprovedSale]
            (([] : List Invoice) ++ [inv]) =
          (.err 400 "Invoice already exists for this sale",
            ([] : List Invoice) ++ [inv]))) :=
  ⟨rfl, generate_invoice_behaviour exAdmin 1 "Acme" (some "077") 2025 []
    [exApprovedSale] [] rfl⟩

/-! ## Claim C5 -/

/-- Invoice with a high sequence number inserted first (id 1). -/
def exInvFive : Invoice :=
  { exInvoice with id := 1, invoice_number := "INV-2025-005" }

/-- Invoice with a lower sequence number inserted later (id 2). -/
def exInvThree : Invoice :=
  { exInvoice with id := 2, sale_id := 2, invoice_number := "INV-2025-003" }

/-- Counterexample to C5 as stated: the code takes the most recently
inserted (largest id) matching invoice number, not the
lexicographically-last one; on a table holding "INV-2025-005" (id 1)
and "INV-2025-003" (id 2) the code generates "INV-2025-004" while the
spec's lexicographic description yields "INV-2025-006". -/
theorem invoice_number_not_lexicographic :
    generateInvoiceNumber [] 2025 [exInvFive, exInvThree] = "INV-2025-004" ∧
    generateInvoiceNumberLexSpec [] 2025 [exInvFive, exInvThree] = "INV-2025-006" ∧
    generateInvoiceNumber [] 2025 [exInvFive, exInvThree] ≠
      generateInvoiceNumberLexSpec [] 2025 [exInvFive, exInvThree] :=
  ⟨by decide, by decide, by decide⟩

theorem dataAppend (s t : String) : (s ++ t).data = s.data ++ t.data := rfl

theorem digitChar_val (d : Nat) (hd : d < 10) :
    (digitChar d).toNat - '0'.toNat = d := by
  interval_cases d <;> decide

theorem digitChar_isDigit (d : Nat) (hd : d < 10) :
    (digitChar d).isDigit = true := by
  interval_cases d <;> decide

theorem digitsVal_append (ds : List Char) (c : Char) :
    digitsVal (ds ++ [c]) = 10 * digitsVal ds + (c.toNat - '0'.toNat) := by
  unfold digitsVal
  rw [List.foldl_append]
  rfl

theorem natToDigits_spec :
    ∀ (fuel n : Nat), n < fuel →
      digitsVal (natToDigits fuel n) = n ∧
      (∀ c ∈ natToDigits fuel n, c.isDigit = true) ∧
      natToDigits fuel n ≠ [] := by
  intro fuel
  induction fuel with
  | zero => intro n h; omega
  | succ f ih =>
    intro n h
    by_cases h10 : n < 10
    · rw [natToDigits, if_pos h10]
      refine ⟨?_, ?_, by simp⟩
      · have := digitChar_val n h10
        unfold digitsVal
        rw [List.foldl_cons, List.foldl_nil]
        omega
      · intro c hc
        rw [List.mem_singleton] at hc
        subst hc
        exact digitChar_isDigit n h10
    · rw [natToDigits, if_neg h10]
      have hd : n / 10 < f := by omega
      obtain ⟨ihval, ihdig, ihne⟩ := ih (n / 10) hd
      refine ⟨?_, ?_, by simp⟩
      · rw [digitsVal_append, ihval, digitChar_val (n % 10) (by omega)]
        omega
      · intro c hc
        rcases List.mem_append.mp hc with hc1 | hc2
        · exact ihdig c hc1
        · rw [List.mem_singleton] at hc2
          subst hc2
          exact digitChar_isDigit (n % 10) (by omega)

theorem foldl_digits_zeros (k : Nat) :
    List.foldl (fun n c => 10 * n + (c.toNat - '0'.toNat)) 0
      (List.replicate k '0') = 0 := by
  induction k with
  | zero => rfl
  | succ m ih =>
    rw [List.replicate_succ, List.foldl_cons]
    have h0 : (10 * 0 + ('0'.toNat - '0'.toNat)) = 0 := by decide
    rw [h0]
    exact ih

theorem digitsVal_replicate_zero (k : Nat) (ds : List Char) :
    digitsVal (List.replicate k '0' ++ ds) = digitsVal ds := by
  unfold digitsVal
  rw [List.foldl_append, foldl_digits_zeros]

theorem takeWhileAll {α : Type} (p : α → Bool) :
    ∀ (l : List α), (∀ c ∈ l, p c = true) → l.takeWhile p = l := by
  intro l
  induction l with
  | nil => intro _; rfl
  | cons c t ih =>
    intro h
    rw [List.takeWhile_cons, h c (by simp)]
    rw [ih (fun x hx => h x (by simp [hx]))]
    simp

theorem padSeq_data (n : Nat) :
    (padSeq n).data =
      List.replicate (3 - (natToDigits (n + 1) n).length) '0'
        ++ natToDigits (n + 1) n := by
  unfold padSeq natToString
  by_cases h : (String.mk (natToDigits (n + 1) n)).length ≥ 3
  · rw [if_pos h]
    have hz : 3 - (natToDigits (n + 1) n).length = 0 := by
      have : (String.mk (natToDigits (n + 1) n)).length =
          (natToDigits (n + 1) n).length := rfl
      omega
    rw [hz]
    rfl
  · rw [if_neg h]
    rfl

theorem padSeq_digits (n : Nat) :
    ∀ c ∈ (padSeq n).data, c.isDigit = true := by
  intro c hc
  rw [padSeq_data] at hc
  rcases List.mem_append.mp hc with hc1 | hc2
  · rw [List.eq_of_mem_replicate hc1]
    decide
  · exact (natToDigits_spec (n + 1) n (by omega)).2.1 c hc2

theorem padSeq_data_ne_nil (n : Nat) : (padSeq n).data ≠ [] := by
  rw [padSeq_data]
  intro h
  rw [List.append_eq_nil] at h
  exact (natToDigits_spec (n + 1) n (by omega)).2.2 h.2

theorem parse_padSeq (n : Nat) : parseIntNat (padSeq n) = some n := by
  unfold parseIntNat
  rw [takeWhileAll _ _ (padSeq_digits n)]
  rw [if_neg (by simp [List.isEmpty_iff, padSeq_data_ne_nil n])]
  rw [padSeq_data, digitsVal_replicate_zero]
  rw [(natToDigits_spec (n + 1) n (by omega)).1]

theorem isDigit_ne_dash (c : Char) (h : c.isDigit = true) : c ≠ '-' := by
  intro hc
  rw [hc] at h
  exact absurd h (by decide)

theorem splitDashAux_sep :
    ∀ (v : List Char), (∀ c ∈ v, c ≠ '-') →
    ∀ acc rest, splitDashAux acc (v ++ '-' :: rest) =
      (acc.reverse ++ v) :: splitDashAux [] rest := by
  intro v
  induction v with
  | nil =>
    intro _ acc rest
    rw [List.nil_append, splitDashAux, if_pos rfl, List.append_nil]
  | cons c v' ih =>
    intro h acc rest
    rw [List.cons_append, splitDashAux]
    rw [if_neg (h c (by simp))]
    rw [ih (fun x hx => h x (by simp [hx])) (c :: acc) rest]
    simp

theorem splitDashAux_all :
    ∀ (v : List Char), (∀ c ∈ v, c ≠ '-') →
    ∀ acc, splitDashAux acc v = [acc.reverse ++ v] := by
  intro v
  induction v with
  | nil => intro _ acc; rw [splitDashAux, List.append_nil]
  | cons c v' ih =>
    intro h acc
    rw [splitDashAux]
    rw [if_neg (h c (by simp))]
    rw [ih (fun x hx => h x (by simp [hx])) (c :: acc)]
    simp

theorem invoiceId_le_foldr_max :
    ∀ (l : List Nat), ∀ x ∈ l, x ≤ l.foldr max 0 := by
  intro l
  induction l with
  | nil => intro x hx; simp at hx
  | cons y t ih =>
    intro x hx
    rw [List.foldr_cons]
    rcases List.mem_cons.mp hx with rfl | hx2
    · exact le_max_left x _
    · exact le_trans (ih x hx2) (le_max_right y _)

theorem id_lt_nextInvoiceId (invs : List Invoice) :
    ∀ i ∈ invs, i.id < nextInvoiceId invs := by
  intro i hi
  unfold nextInvoiceId
  have := invoiceId_le_foldr_max (invs.map Invoice.id) i.id
    (List.mem_map.mpr ⟨i, hi, rfl⟩)
  omega

theorem foldl_pick_eq (inv : Invoice) :
    ∀ (t : List Invoice) (a : Invoice),
      (a = inv ∨ (a.id < inv.id ∧ inv ∈ t)) →
      (∀ j ∈ t, j = inv ∨ j.id < inv.id) →
      t.foldl (fun acc i =>
        match acc with
        | none => some i
        | some a => if a.id ≤ i.id then some i else some a) (some a) =
        some inv := by
  intro t
  induction t with
  | nil =>
    intro a ha _
    rcases ha with rfl | ⟨_, h⟩
    · rfl
    · exact absurd h (by simp)
  | cons x t' ih =>
    intro a ha hall
    rw [List.foldl_cons]
    show List.foldl _ (if a.id ≤ x.id then some x else some a) t' = some inv
    have hx := hall x (by simp)
    by_cases hle : a.id ≤ x.id
    · rw [if_pos hle]
      rcases hx with rfl | hxlt
      · exact ih x (Or.inl rfl) (fun j hj => hall j (by simp [hj]))
      · have hinv : inv ∈ t' := by
          rcases ha with rfl | ⟨halt, hmem⟩
          · omega
          · rcases List.mem_cons.mp hmem with rfl | hm
            · omega
            · exact hm
        exact ih x (Or.inr ⟨hxlt, hinv⟩) (fun j hj => hall j (by simp [hj]))
    · rw [if_neg hle]
      rcases ha with rfl | ⟨halt, hmem⟩
      · exact ih _ (Or.inl rfl) (fun j hj => hall j (by simp [hj]))
      · have hinv : inv ∈ t' := by
          rcases List.mem_cons.mp hmem with rfl | hm
          · omega
          · exact hm
        exact ih a (Or.inr ⟨halt, hinv⟩) (fun j hj => hall j (by simp [hj]))

theorem lastInvoiceById_eq (invs : List Invoice) (pat : String) (inv : Invoice)
    (hmem : inv ∈ invs) (hmatch : strIsPre pat inv.invoice_number = true)
    (hmax : ∀ j ∈ invs, strIsPre pat j.invoice_number = true → j ≠ inv →
      j.id < inv.id) :
    lastInvoiceById invs pat = some inv := by
  unfold lastInvoiceById
  have hmemf : inv ∈ invs.filter (fun i => strIsPre pat i.invoice_number) :=
    List.mem_filter.mpr ⟨hmem, hmatch⟩
  have hallf : ∀ j ∈ invs.filter (fun i => strIsPre pat i.invoice_number),
      j = inv ∨ j.id < inv.id := by
    intro j hj
    obtain ⟨hj1, hj2⟩ := List.mem_filter.mp hj
    by_cases hje : j = inv
    · exact Or.inl hje
    · exact Or.inr (hmax j hj1 hj2 hje)
  cases hf : invs.filter (fun i => strIsPre pat i.invoice_number) with
  | nil => rw [hf] at hmemf; simp at hmemf
  | cons x t =>
    rw [hf] at hmemf hallf
    rw [List.foldl_cons]
    show List.foldl _ (some x) t = some inv
    rcases List.mem_cons.mp hmemf with rfl | hmem2
    · exact foldl_pick_eq inv t inv (Or.inl rfl)
        (fun j hj => hallf j (by simp [hj]))
    · rcases hallf x (by simp) with rfl | hlt
      · exact foldl_pick_eq x t x (Or.inl rfl)
          (fun j hj => hallf j (by simp [hj]))
      · exact foldl_pick_eq inv t x (Or.inr ⟨hlt, hmem2⟩)
          (fun j hj => hallf j (by simp [hj]))

theorem isPre_append (l m : List Char) : l.isPrefixOf (l ++ m) = true := by
  induction l with
  | nil => simp [List.isPrefixOf]
  | cons c t ih => simp [List.isPrefixOf, ih]

/-- Claim C5 amended: `generateInvoiceNumber` reads the configured
prefix (default "INV") and the year and builds `<prefix>-<year>-`; when
no existing invoice number matches that pattern the result is
`<prefix>-<year>-001`; otherwise it takes the most recently inserted
(largest id — not, as the spec says, the lexicographically-last)
matching number, parses its third dash-separated component and adds 1,
zero-padding the sequence to 3 digits; and under sequential generation —
inserting the freshly generated number with a fresh id — the next
generated number carries the next consecutive sequence: sequence
components are consecutive increasing integers with no gaps. -/
theorem invoice_number_generation (settings : List (String × String))
    (year : Nat) (invs : List Invoice) (pfx base : String)
    (hpfx : pfx = (settingValue settings "invoice_prefix").getD "INV")
    (hbase : base = pfx ++ "-" ++ natToString year ++ "-") :
    ((∀ i ∈ invs, strIsPre base i.invoice_number = false) →
      generateInvoiceNumber settings year invs = base ++ "001") ∧
    (∀ inv n, inv ∈ invs → strIsPre base inv.invoice_number = true →
      (∀ j ∈ invs, strIsPre base j.invoice_number = true → j ≠ inv →
        j.id < inv.id) →
      parseIntNat ((jsSplitDash inv.invoice_number).getD 2 "") = some n →
      generateInvoiceNumber settings year invs = base ++ padSeq (n + 1)) ∧
    ((∀ c ∈ pfx.data, c ≠ '-') → ∀ (nv : Invoice) (n : Nat),
      generateInvoiceNumber settings year invs = base ++ padSeq n →
      nv.invoice_number = generateInvoiceNumber settings year invs →
      (∀ j ∈ invs, j.id < nv.id) →
      generateInvoiceNumber settings year (invs ++ [nv]) =
        base ++ padSeq (n + 1)) := by
  have hgen : ∀ (l : List Invoice), generateInvoiceNumber settings year l =
      (match lastInvoiceById l base with
       | none => base ++ padSeq 1
       | some last =>
         match nextSequence last with
         | some n => base ++ padSeq n
         | none => base ++ "NaN") := by
    intro l
    subst hbase
    subst hpfx
    rfl
  have hyeardig := natToDigits_spec (year + 1) year (by omega)
  have hdata : ∀ (tail : String), (base ++ tail).data =
      pfx.data ++ '-' :: (natToDigits (year + 1) year ++ '-' :: tail.data) := by
    intro tail
    subst hbase
    have h1 : ("-" : String).data = ['-'] := rfl
    have h2 : (natToString year).data = natToDigits (year + 1) year := rfl
    simp [dataAppend, h1, h2]
  refine ⟨?_, ?_, ?_⟩
  · intro hnone
    have hlast : lastInvoiceById invs base = none := by
      unfold lastInvoiceById
      rw [List.filter_eq_nil_iff.mpr (fun i hi => by rw [hnone i hi]; simp)]
      rfl
    rw [hgen invs]
    rw [hlast]
    show base ++ padSeq 1 = base ++ "001"
    rw [show padSeq 1 = "001" from by decide]
  · intro inv n hmem hmatch hmax hparse
    have hns : nextSequence inv = some (n + 1) := by
      unfold nextSequence
      rw [hparse]
      rfl
    rw [hgen invs]
    rw [lastInvoiceById_eq invs base inv hmem hmatch hmax]
    show (match nextSequence inv with
          | some n => base ++ padSeq n
          | none => base ++ "NaN") = base ++ padSeq (n + 1)
    rw [hns]
  · intro hdash nv n hgenn hnum hid
    have hnumber : nv.invoice_number = base ++ padSeq n := by
      rw [hnum, hgenn]
    have hmatch : strIsPre base nv.invoice_number = true := by
      rw [hnumber]
      unfold strIsPre
      rw [dataAppend]
      exact isPre_append base.data (padSeq n).data
    have hparse : parseIntNat ((jsSplitDash nv.invoice_number).getD 2 "") =
        some n := by
      rw [hnumber]
      unfold jsSplitDash
      rw [hdata (padSeq n)]
      rw [splitDashAux_sep pfx.data hdash []]
      rw [splitDashAux_sep (natToDigits (year + 1) year)
        (fun c hc => isDigit_ne_dash c (hyeardig.2.1 c hc)) []]
      rw [splitDashAux_all (padSeq n).data
        (fun c hc => isDigit_ne_dash c (padSeq_digits n c hc)) []]
      simp only [List.map_cons, List.map_nil, List.reverse_nil,
        List.nil_append, List.getD, List.getElem?_cons_succ,
        List.getElem?_cons_zero, Option.getD_some]
      rw [mkData]
      exact parse_padSeq n
    have hmax2 : ∀ j ∈ invs ++ [nv],
        strIsPre base j.invoice_number = true → j ≠ nv → j.id < nv.id := by
      intro j hj _ hne
      rcases List.mem_append.mp hj with hj1 | hj2
      · exact hid j hj1
      · rw [List.mem_singleton] at hj2
        exact absurd hj2 hne
    have hns : nextSequence nv = some (n + 1) := by
      unfold nextSequence
      rw [hparse]
      rfl
    rw [hgen (invs ++ [nv])]
    rw [lastInvoiceById_eq (invs ++ [nv]) base nv (by simp) hmatch hmax2]
    show (match nextSequence nv with
          | some n => base ++ padSeq n
          | none => base ++ "NaN") = base ++ padSeq (n + 1)
    rw [hns]

/-- The invoice created from the first generated number of 2025. -/
def exGenInv : Invoice :=
  { exInvoice with id := 1, invoice_number := "INV-2025-001" }

/-- Witness for C5: with no settings row and an empty invoice table, the
first generated number of 2025 is INV-2025-001, and after inserting it
the next generated number carries the consecutive sequence 002. -/
theorem invoice_number_generation_witness :
    ("INV" = (settingValue [] "invoice_prefix").getD "INV") ∧
    ("INV-2025-" = "INV" ++ "-" ++ natToString 2025 ++ "-") ∧
    generateInvoiceNumber [] 2025 [] = "INV-2025-" ++ "001" ∧
    generateInvoiceNumber [] 2025 [exGenInv] = "INV-2025-" ++ padSeq 2 := by
  obtain ⟨h1, _, h3⟩ :=
    invoice_number_generation [] 2025 [] "INV" "INV-2025-" (by decide) (by decide)
  have hfirst : generateInvoiceNumber [] 2025 [] = "INV-2025-" ++ "001" :=
    h1 (fun i hi => absurd hi (by simp))
  refine ⟨by decide, by decide, hfirst, ?_⟩
  have hstep := h3 (by decide) exGenInv 1
    (by rw [hfirst]; rw [show padSeq 1 = "001" from by decide])
    (by rw [hfirst]; decide)
    (fun j hj => absurd hj (by simp))
  simpa using hstep

/-! ## Claim C6 -/

/-- A second approved sale of journalist 2, also with commission 50. -/
def exApprovedSale2 : Sale := { exApprovedSale with id := 2 }

/-- Claim C6, evaluated at the failing input: the dashboard commissions
query joins approved sales with ALL commission payments of the same
journalist, so each sale's commission is counted once per payment row
and each payment once per sale row.  With one approved sale (commission
50) and two payments (30 and 25) for journalist 2, the dashboard
reports earned = 100 while the sum over approved sales is 50; adding a
second approved sale with commission 50 moves the dashboard figure to
200 (an increase of 100, not the claimed 50); and with no approved
sales the dashboard reports paid = 0 although 55 was paid. -/
theorem dashboard_commission_join_fanout :
    dashboardEarned [exApprovedSale] exC3Pays none = 100 ∧
    specDashboardEarned [exApprovedSale] none = 50 ∧
    dashboardEarned [exApprovedSale] exC3Pays none ≠
      specDashboardEarned [exApprovedSale] none ∧
    dashboardEarned [exApprovedSale2, exApprovedSale] exC3Pays none = 200 ∧
    dashboardEarned [exApprovedSale2, exApprovedSale] exC3Pays none -
      dashboardEarned [exApprovedSale] exC3Pays none = 100 ∧
    dashboardPaid [] exC3Pays none = 0 ∧
    specDashboardPaid exC3Pays none = 55 := by
  refine ⟨?_, ?_, ?_, ?_, ?_, ?_, ?_⟩ <;>
    simp [dashboardEarned, dashboardPaid, dashboardCommissionRows,
      specDashboardEarned, specDashboardPaid, inScope,
      exApprovedSale, exApprovedSale2, exC3Pays] <;>
    norm_num

/-! ## Claim C8 -/

/-- A client with id 1 (the client of `exApprovedSale`). -/
def exClient : Client :=
  { id := 1, client_name := "Acme", contact_person := none
    phone_number := "077", email := none, address := none
    added_by := some 2 }

/-- Counterexample to C8's "Conflict-class" reading: deleting a client
that has a sale fails with HTTP 400, not with the taxonomy's Conflict
status 409. -/
theorem client_delete_blocked_is_400_not_409 :
    (deleteClientRoute exAdmin 1 [exClient] [exApprovedSale]).1 =
      .err 400 "Cannot delete client with existing sales" ∧
    ∀ m, (deleteClientRoute exAdmin 1 [exClient] [exApprovedSale]).1 ≠
      .err 409 m := by
  have h : (deleteClientRoute exAdmin 1 [exClient] [exApprovedSale]).1 =
      .err 400 "Cannot delete client with existing sales" := by
    simp [deleteClientRoute, exAdmin, Client.findById, Client.hasSales,
      exClient, exApprovedSale]
  exact ⟨h, fun m h2 => by rw [h] at h2; simp at h2⟩

/-- Claim C8 amended: client deletion is admin-only (403 otherwise);
deleting a client having at least one associated sale, of any status,
fails with the 400 error "Cannot delete client with existing sales" and
leaves both tables unchanged; deleting a client with zero associated
sales succeeds, removes exactly that client row, and never touches the
sales table (no cascade). -/
theorem client_delete_guard (caller : AuthUser) (id : Nat)
    (clients : List Client) (sales : List Sale) :
    (caller.role ≠ "admin" →
      deleteClientRoute caller id clients sales =
        (.err 403 "Insufficient permissions", (clients, sales))) ∧
    (caller.role = "admin" → Client.findById id clients = none →
      deleteClientRoute caller id clients sales =
        (.err 404 "Client not found", (clients, sales))) ∧
    (∀ c, caller.role = "admin" → Client.findById id clients = some c →
      Client.hasSales id sales = true →
      deleteClientRoute caller id clients sales =
        (.err 400 "Cannot delete client with existing sales",
          (clients, sales))) ∧
    (∀ c, caller.role = "admin" → Client.findById id clients = some c →
      Client.hasSales id sales = false →
      (deleteClientRoute caller id clients sales).1 =
        .ok 200 "Client deleted successfully" ∧
      (deleteClientRoute caller id clients sales).2.2 = sales ∧
      (∀ x ∈ (deleteClientRoute caller id clients sales).2.1,
        x.id ≠ id ∧ x ∈ clients) ∧
      (∀ x ∈ clients, x.id ≠ id →
        x ∈ (deleteClientRoute caller id clients sales).2.1)) := by
  refine ⟨?_, ?_, ?_, ?_⟩
  · intro hrole
    have hb : (caller.role != "admin") = true := by
      simp [bne_iff_ne]
      exact hrole
    simp [deleteClientRoute, hb]
  · intro hrole hfind
    have hb : (caller.role != "admin") = false := by simp [hrole]
    simp [deleteClientRoute, hb, hfind]
  · intro c hrole hfind hsales
    have hb : (caller.role != "admin") = false := by simp [hrole]
    simp [deleteClientRoute, hb, hfind, hsales]
  · intro c hrole hfind hsales
    have hb : (caller.role != "admin") = false := by simp [hrole]
    have hfind2 : clients.find? (fun x => x.id == id) = some c := hfind
    have hmem : c ∈ clients := List.mem_of_find?_eq_some hfind2
    have hcid : (c.id == id) = true :=
      List.find?_some (p := fun (x : Client) => x.id == id) hfind2
    have hany : (clients.any fun x => x.id == id) = true :=
      List.any_eq_true.mpr ⟨c, hmem, hcid⟩
    have hdel : Client.del id clients =
        (true, clients.filter (fun x => x.id != id)) := by
      unfold Client.del
      rw [hany]
    refine ⟨?_, ?_, ?_, ?_⟩
    · simp [deleteClientRoute, hb, hfind, hsales, hdel]
    · simp [deleteClientRoute, hb, hfind, hsales, hdel]
    · intro x hx
      simp only [deleteClientRoute, hb, hfind, hsales, hdel] at hx
      simp at hx
      obtain ⟨hx1, hx2⟩ := hx
      exact ⟨hx2, hx1⟩
    · intro x hx hxid
      simp only [deleteClientRoute, hb, hfind, hsales, hdel]
      simp
      exact ⟨hx, hxid⟩

/-- Witness for C8 at the concrete client with no sales: the deletion
succeeds and removes the row without touching sales. -/
theorem client_delete_guard_witness :
    ((exAdmin.role ≠ "admin" →
      deleteClientRoute exAdmin 1 [exClient] [] =
        (.err 403 "Insufficient permissions", ([exClient], []))) ∧
    (exAdmin.role = "admin" → Client.findById 1 [exClient] = none →
      deleteClientRoute exAdmin 1 [exClient] [] =
        (.err 404 "Client not found", ([exClient], []))) ∧
    (∀ c, exAdmin.role = "admin" → Client.findById 1 [exClient] = some c →
      Client.hasSales 1 [] = true →
      deleteClientRoute exAdmin 1 [exClient] [] =
        (.err 400 "Cannot delete client with existing sales",
          ([exClient], []))) ∧
    (∀ c, exAdmin.role = "admin" → Client.findById 1 [exClient] = some c →
      Client.hasSales 1 [] = false →
      (deleteClientRoute exAdmin 1 [exClient] []).1 =
        .ok 200 "Client deleted successfully" ∧
      (deleteClientRoute exAdmin 1 [exClient] []).2.2 = [] ∧
      (∀ x ∈ (deleteClientRoute exAdmin 1 [exClient] []).2.1,
        x.id ≠ 1 ∧ x ∈ [exClient]) ∧
      (∀ x ∈ [exClient], x.id ≠ 1 →
        x ∈ (deleteClientRoute exAdmin 1 [exClient] []).2.1))) :=
  client_delete_guard exAdmin 1 [exClient] []

/-! ## Claim C7 -/

/-- An export row whose client name contains a double quote. -/
def exportRowCex : ExportRow :=
  { id := 1, created_at := "2025-01-01T00:00:00.000Z"
    payment_date := "2025-01-01T00:00:00.000Z"
    client_name := some "Acme \"Media\" Ltd", client_phone := some "077"
    journalist := some "Jane Doe", amount := "500.00"
    commission_amount := "50.00", payment_method := "Cash"
    ad_type := "Print", status := "approved"
    description := some "ad spot" }

set_option maxRecDepth 8192 in
/-- Counterexample to C7 as stated: the export wraps the client name in
double quotes WITHOUT doubling internal quotes, so a client name
containing a quote produces a malformed line that does not parse back to
the original field values. -/
theorem csv_client_quote_not_escaped :
    parseFields (csvLineChars exportRowCex) = none ∧
    parseFields (csvLineChars exportRowCex) ≠
      some ["1", "2025-01-01T00:00:00.000Z", "2025-01-01T00:00:00.000Z",
        "Acme \"Media\" Ltd", "077", "Jane Doe", "500.00", "50.00",
        "Cash", "Print", "approved", "ad spot"] := by
  have h : parseFields (csvLineChars exportRowCex) = none := by decide
  exact ⟨h, by rw [h]; simp⟩

/-- Safety of one unquoted CSV field value: no comma, quote or newline. -/
def rawSafe (s : String) : Prop :=
  ∀ c ∈ s.data, c ≠ ',' ∧ c ≠ '"' ∧ c ≠ '\n'

instance (s : String) : Decidable (rawSafe s) := List.decidableBAll _ _

theorem isDigit_rawSafe (c : Char) (h : c.isDigit = true) :
    c ≠ ',' ∧ c ≠ '"' ∧ c ≠ '\n' := by
  refine ⟨?_, ?_, ?_⟩ <;> intro hc <;> rw [hc] at h <;>
    exact absurd h (by decide)

/-- Claim C7 amended: in the sales CSV export only the client name,
journalist name and description are double-quote wrapped, and only the
description has internal quotes doubled; the remaining fields are
emitted raw.  A data line therefore parses back to the original field
values only under the corresponding safety assumptions: raw fields free
of comma/quote/newline, the two name fields free of quotes and
newlines, the description free of newlines.  The response carries
Content-Type text/csv, an attachment disposition, and the documented
header row, and is admin-only. -/
theorem csv_export_escaping (r : ExportRow) (caller : AuthUser)
    (rows : List ExportRow)
    (hadmin : caller.role = "admin")
    (hcreated : rawSafe r.created_at) (hdate : rawSafe r.payment_date)
    (hclient : ∀ c ∈ (r.client_name.getD "").data, c ≠ '"' ∧ c ≠ '\n')
    (hphone : rawSafe (r.client_phone.getD ""))
    (hjour : ∀ c ∈ (r.journalist.getD "").data, c ≠ '"' ∧ c ≠ '\n')
    (hamount : rawSafe r.amount) (hcomm : rawSafe r.commission_amount)
    (hpm : rawSafe r.payment_method) (hat : rawSafe r.ad_type)
    (hst : rawSafe r.status)
    (hdesc : ∀ c ∈ (r.description.getD "").data, c ≠ '\n') :
    parseFields (csvLineChars r) =
      some [natToString r.id, r.created_at, r.payment_date,
        r.client_name.getD "", r.client_phone.getD "", r.journalist.getD "",
        r.amount, r.commission_amount, r.payment_method, r.ad_type, r.status,
        r.description.getD ""] ∧
    parseFields csvHeaderLine.data =
      some ["ID", "Created At", "Payment Date", "Client", "Phone",
        "Journalist", "Amount", "Commission", "Payment Method", "Ad Type",
        "Status", "Description"] ∧
    exportSalesRoute caller rows = .ok 200
      { contentType := "text/csv"
        contentDisposition := "attachment; filename=sales-export.csv"
        body := csvHeaderLine ++ "\n"
          ++ String.join (rows.map (fun x => String.mk (csvLineChars x) ++ "\n")) } := by
  refine ⟨?_, by decide, ?_⟩
  · have hsafe : ∀ c ∈ rowCells r, c.safe := by
      intro c hc
      simp only [rowCells, List.mem_cons, List.not_mem_nil, or_false] at hc
      rcases hc with rfl | rfl | rfl | rfl | rfl | rfl | rfl | rfl | rfl |
        rfl | rfl | rfl
      · exact fun x hx => isDigit_rawSafe x
          ((natToDigits_spec (r.id + 1) r.id (by omega)).2.1 x hx)
      · exact hcreated
      · exact hdate
      · exact hclient
      · exact hphone
      · exact hjour
      · exact hamount
      · exact hcomm
      · exact hpm
      · exact hat
      · exact hst
      · exact hdesc
    have h := parseFields_joinComma (rowCells r) (by simp [rowCells]) hsafe
    unfold csvLineChars
    rw [h]
    rfl
  · have hb : (caller.role != "admin") = false := by simp [hadmin]
    simp [exportSalesRoute, hb, csvExportBody]

/-- A row with a comma in the client name and quotes in the
description: both survive the round trip. -/
def exportRowOk : ExportRow :=
  { exportRowCex with
    client_name := some "Acme, Ltd"
    description := some "say \"hi\" twice" }

/-- Witness for C7 at a concrete row with a comma in the client name
and quotes in the description. -/
theorem csv_export_escaping_witness :
    exAdmin.role = "admin" ∧ rawSafe exportRowOk.created_at ∧
    (parseFields (csvLineChars exportRowOk) =
      some [natToString exportRowOk.id, exportRowOk.created_at,
        exportRowOk.payment_date, exportRowOk.client_name.getD "",
        exportRowOk.client_phone.getD "", exportRowOk.journalist.getD "",
        exportRowOk.amount, exportRowOk.commission_amount,
        exportRowOk.payment_method, exportRowOk.ad_type, exportRowOk.status,
        exportRowOk.description.getD ""] ∧
    parseFields csvHeaderLine.data =
      some ["ID", "Created At", "Payment Date", "Client", "Phone",
        "Journalist", "Amount", "Commission", "Payment Method", "Ad Type",
        "Status", "Description"] ∧
    exportSalesRoute exAdmin [exportRowOk] = .ok 200
      { contentType := "text/csv"
        contentDisposition := "attachment; filename=sales-export.csv"
        body := csvHeaderLine ++ "\n"
          ++ String.join ([exportRowOk].map
              (fun x => String.mk (csvLineChars x) ++ "\n")) }) :=
  ⟨rfl, by decide,
    csv_export_escaping exportRowOk exAdmin [exportRowOk] rfl
      (by decide) (by decide) (by decide) (by decide) (by decide)
      (by decide) (by decide) (by decide) (by decide) (by decide)
      (by decide)⟩

/-! ## Claim C10 -/

/-- Claim C10: listing invoices, fetching an invoice by id and
downloading its PDF are protected only by authentication — for every
caller, of any role, they never return 403 Forbidden, and a fetch
returns the invoice or a 404; only invoice generation and deletion are
role-gated, returning 403 for every non-admin caller. -/
theorem invoice_read_not_role_restricted (caller : AuthUser) (id : Nat)
    (invs : List Invoice) (files : List String) :
    ¬ (listInvoicesRoute caller invs).isForbidden ∧
    ¬ (getInvoiceRoute caller id invs).isForbidden ∧
    ((∃ i, getInvoiceRoute caller id invs = .ok 200 i) ∨
      getInvoiceRoute caller id invs = .err 404 "Invoice not found") ∧
    ¬ (downloadInvoiceRoute caller id invs files).isForbidden ∧
    (caller.role ≠ "admin" →
      (∀ (cn : String) (cp : Option String) (year : Nat)
        (settings : List (String × String)) (sales : List Sale),
        (generateInvoiceRoute caller id cn cp year settings sales invs).1 =
          .err 403 "Insufficient permissions") ∧
      (deleteInvoiceRoute caller id invs files).1 =
        .err 403 "Insufficient permissions") := by
  refine ⟨?_, ?_, ?_, ?_, ?_⟩
  · simp [listInvoicesRoute, RouteResult.isForbidden]
  · cases hf : invs.find? (fun i => i.id == id) with
    | none => simp [getInvoiceRoute, hf, RouteResult.isForbidden]
    | some i => simp [getInvoiceRoute, hf, RouteResult.isForbidden]
  · cases hf : invs.find? (fun i => i.id == id) with
    | none => right; simp [getInvoiceRoute, hf]
    | some i => left; exact ⟨i, by simp [getInvoiceRoute, hf]⟩
  · cases hf : invs.find? (fun i => i.id == id) with
    | none => simp [downloadInvoiceRoute, hf, RouteResult.isForbidden]
    | some i =>
      cases hp : i.pdf_path with
      | none => simp [downloadInvoiceRoute, hf, hp, RouteResult.isForbidden]
      | some p =>
        by_cases hc : p ∈ files <;>
          simp [downloadInvoiceRoute, hf, hp, hc, RouteResult.isForbidden]
  · intro hrole
    have hb : (caller.role != "admin") = true := by
      simp [bne_iff_ne]
      exact hrole
    constructor
    · intro cn cp year settings sales
      simp [generateInvoiceRoute, hb]
    · simp [deleteInvoiceRoute, hb]

/-- Witness for C10 at a journalist caller and a one-invoice table. -/
theorem invoice_read_not_role_restricted_witness :
    (¬ (listInvoicesRoute ⟨2, "journalist"⟩ [exInvoice]).isForbidden ∧
    ¬ (getInvoiceRoute ⟨2, "journalist"⟩ 1 [exInvoice]).isForbidden ∧
    ((∃ i, getInvoiceRoute ⟨2, "journalist"⟩ 1 [exInvoice] = .ok 200 i) ∨
      getInvoiceRoute ⟨2, "journalist"⟩ 1 [exInvoice] =
        .err 404 "Invoice not found") ∧
    ¬ (downloadInvoiceRoute ⟨2, "journalist"⟩ 1 [exInvoice]
        ["/uploads/invoices/invoice-INV-2025-001.pdf"]).isForbidden ∧
    (AuthUser.role ⟨2, "journalist"⟩ ≠ "admin" →
      (∀ (cn : String) (cp : Option String) (year : Nat)
        (settings : List (String × String)) (sales : List Sale),
        (generateInvoiceRoute ⟨2, "journalist"⟩ 1 cn cp year settings sales
          [exInvoice]).1 = .err 403 "Insufficient permissions") ∧
      (deleteInvoiceRoute ⟨2, "journalist"⟩ 1 [exInvoice]
        ["/uploads/invoices/invoice-INV-2025-001.pdf"]).1 =
        .err 403 "Insufficient permissions")) :=
  invoice_read_not_role_restricted ⟨2, "journalist"⟩ 1 [exInvoice]
    ["/uploads/invoices/invoice-INV-2025-001.pdf"]

end AfroGazette
